import Mathlib

/-!
# midiokbd: MIDI notes to virtual keyboard events

A shallow embedding of `src/main.c` and the properties of its note-to-key
table, its event handler and the control flow of `main`.

C `int` values are `Int`; the `unsigned char` fields of an ALSA sequencer
event are `Nat`; the `__u16` fields of `struct input_event` are filled with
an explicit `% 65536`.  Calls into the operating system and into the ALSA
library are recorded, in order, in a trace; the values they return come
from an explicit environment.
-/

namespace Midiokbd

set_option maxRecDepth 100000

/-! ## Constants of the included headers -/

/-- Constants that `main.c` takes from `<linux/uinput.h>` and
`<alsa/asoundlib.h>`.  The headers are not part of the repository, so
their values are parameters of the embedding. -/
structure Headers where
  EV_SYN : Int
  EV_KEY : Int
  SYN_REPORT : Int
  SND_SEQ_EVENT_NOTEON : Int
  SND_SEQ_EVENT_NOTEOFF : Int
  KEY_A : Int
  KEY_B : Int
  KEY_C : Int
  KEY_D : Int
  KEY_E : Int
  KEY_F : Int
  KEY_G : Int
  KEY_H : Int
  KEY_I : Int
  KEY_J : Int
  KEY_K : Int
  KEY_L : Int
  KEY_M : Int
  KEY_N : Int
  KEY_O : Int
  KEY_P : Int
  KEY_Q : Int
  KEY_R : Int
  KEY_S : Int
  KEY_T : Int
  KEY_U : Int
  KEY_V : Int
  KEY_W : Int
  KEY_X : Int
  KEY_Y : Int
  KEY_Z : Int

/-- The values the constants have in the Linux and ALSA headers
(`input-event-codes.h`, `seq_event.h`); used to instantiate the general
statements below. -/
def linux_headers : Headers where
  EV_SYN := 0
  EV_KEY := 1
  SYN_REPORT := 0
  SND_SEQ_EVENT_NOTEON := 6
  SND_SEQ_EVENT_NOTEOFF := 7
  KEY_A := 30
  KEY_B := 48
  KEY_C := 46
  KEY_D := 32
  KEY_E := 18
  KEY_F := 33
  KEY_G := 34
  KEY_H := 35
  KEY_I := 23
  KEY_J := 36
  KEY_K := 37
  KEY_L := 38
  KEY_M := 50
  KEY_N := 49
  KEY_O := 24
  KEY_P := 25
  KEY_Q := 16
  KEY_R := 19
  KEY_S := 31
  KEY_T := 20
  KEY_U := 22
  KEY_V := 47
  KEY_W := 17
  KEY_X := 45
  KEY_Y := 21
  KEY_Z := 44

/-! ## Data -/

/-- The record `struct input_event` written to the uinput descriptor:
`type` and `code` are `__u16`, `value` is `__s32`, `time` is a `timeval`. -/
structure input_event where
  type : Int
  code : Int
  value : Int
  tv_sec : Int
  tv_usec : Int
deriving DecidableEq, Repr

/-- The part of `snd_seq_event_t` that `handle_event` reads: the event
type and, from the `data.note` member of the payload union, the note and
the velocity.  All three are `unsigned char` in C (0..255). -/
structure snd_seq_event_t where
  type : Nat
  note : Nat
  velocity : Nat
deriving DecidableEq, Repr

/-- The requests `main` passes to `ioctl` on the uinput descriptor, with
their argument.  `UI_DEV_SETUP` carries the fields of `usetup` that are
set after the `memset`: bus type (by the name of its constant), vendor,
product and name. -/
inductive Ioctl
  | UI_SET_EVBIT (bit : Int)
  | UI_SET_KEYBIT (key : Int)
  | UI_DEV_SETUP (bustype : String) (vendor product : Nat) (name : String)
  | UI_DEV_CREATE
  | UI_DEV_DESTROY
deriving DecidableEq, Repr

/-- One call made by the program to the operating system or to the ALSA
library, with the arguments that matter.  `fprintf_usage` and
`fprintf_error` are the two kinds of `fprintf(stderr, ...)`: the usage
line with `argv[0]`, and a step name followed by `snd_strerror(err)`. -/
inductive Call
  | fprintf_usage (argv0 : Option String)
  | fprintf_error (step : String) (err : Int)
  | sys_open (path : String)
  | ioctl (fd : Int) (req : Ioctl)
  | write (fd : Int) (ie : input_event)
  | close (fd : Int)
  | snd_seq_open
  | snd_seq_set_client_name (name : String)
  | snd_seq_parse_address (port : Option String)
  | snd_seq_create_simple_port (name : String)
  | snd_seq_connect_from (client port : Int)
  | snd_seq_poll_descriptors_count
  | snd_seq_poll_descriptors
  | poll
  | snd_seq_event_input
deriving DecidableEq, Repr

/-- Program state: the global `ui` (the uinput descriptor) and the calls
made so far, oldest first. -/
structure State where
  ui : Int
  trace : List Call
deriving DecidableEq, Repr

/-- Appends one call to the trace. -/
def State.call (s : State) (c : Call) : State :=
  { s with trace := s.trace ++ [c] }

/-- How a run ends. -/
inductive Status
  /-- Ended by `exit(code)` or by `return code` from `main`. -/
  | exited (code : Int)
  /-- The scripted replies of the environment are used up while the
  program is inside a blocking call. -/
  | waiting
  /-- Read of `keymap` at an index outside its 128 entries: undefined
  behaviour in C, with no diagnostic. -/
  | out_of_bounds (index : Nat)
deriving DecidableEq, Repr

/-- The end of a run: its status and the state reached. -/
structure Halt where
  status : Status
  state : State
deriving DecidableEq, Repr

/-! ## The note-to-key table -/

/-- The table `keymap` of `main.c`: 127 initialisers, the 128th entry is
zero-initialised. -/
def keymap (h : Headers) : List Int :=
  [ 0, 0, 0, 0, 0, 0, 0, 0, 0, 0, 0, 0,
    0, 0, 0, 0, 0, 0, 0, 0, 0, 0, 0, 0,
    0, 0, 0, 0, 0, 0, 0, 0, 0, 0, 0, 0,
    0, 0, 0, 0, 0, 0, 0, 0, 0, 0, 0, 0,
    0, 0, 0, 0, 0, 0, 0, 0, 0, 0, 0, 0,
    h.KEY_A, h.KEY_B, h.KEY_C, h.KEY_D, h.KEY_E, h.KEY_F, h.KEY_G, h.KEY_H, h.KEY_I, h.KEY_J, h.KEY_K, h.KEY_L,
    h.KEY_M, h.KEY_N, h.KEY_O, h.KEY_P, h.KEY_Q, h.KEY_R, h.KEY_S, h.KEY_T, h.KEY_U, h.KEY_V, h.KEY_W, h.KEY_X,
    h.KEY_Y, h.KEY_Z, 0, 0, 0, 0, 0, 0, 0, 0, 0, 0,
    0, 0, 0, 0, 0, 0, 0, 0, 0, 0, 0, 0,
    0, 0, 0, 0, 0, 0, 0, 0, 0, 0, 0, 0,
    0, 0, 0, 0, 0, 0, 0,
    0 ]

/-! ## The emitter -/

/-- The function `uinput_emit`: fills in an `input_event` and writes it to
`ui`.  The result of `write` is not looked at. -/
def uinput_emit (type code val : Int) (s : State) : State :=
  let ie : input_event :=
    { type := type % 65536, code := code % 65536, value := val, tv_sec := 0, tv_usec := 0 }
  s.call (Call.write s.ui ie)

/-- The function `key_pressed`. -/
def key_pressed (h : Headers) (key : Int) (s : State) : State :=
  let s := uinput_emit h.EV_KEY key 1 s
  uinput_emit h.EV_SYN h.SYN_REPORT 0 s

/-- The function `key_released`. -/
def key_released (h : Headers) (key : Int) (s : State) : State :=
  let s := uinput_emit h.EV_KEY key 0 s
  uinput_emit h.EV_SYN h.SYN_REPORT 0 s

/-! ## The handler -/

/-- The function `handle_event`.  The read `keymap[ev->data.note.note]`
has no range check: an index outside the table ends the run with
`Status.out_of_bounds`. -/
def handle_event (h : Headers) (ev : snd_seq_event_t) (s : State) : Except Halt State :=
  if (ev.type : Int) ≠ h.SND_SEQ_EVENT_NOTEON ∧ (ev.type : Int) ≠ h.SND_SEQ_EVENT_NOTEOFF then
    .ok s
  else
    match (keymap h)[ev.note]? with
    | none => .error ⟨Status.out_of_bounds ev.note, s⟩
    | some key =>
      if key = 0 then
        .ok s
      else
        let s := if (ev.type : Int) = h.SND_SEQ_EVENT_NOTEON then
            (if ev.velocity ≠ 0 then key_pressed h key s else key_released h key s)
          else s
        let s := if (ev.type : Int) = h.SND_SEQ_EVENT_NOTEOFF then key_released h key s else s
        .ok s

/-- Successive calls of `handle_event` on a list of events, in order. -/
def handle_events (h : Headers) : List snd_seq_event_t → State → Except Halt State
  | [], s => .ok s
  | ev :: evs, s =>
    match handle_event h ev s with
    | .error e => .error e
    | .ok s => handle_events h evs s

/-! ## The environment and `main` -/

/-- One turn of the dispatch loop as the environment scripts it: the
value `poll` returns, then the replies of the following calls of
`snd_seq_event_input` (its return value and the event pointer it stores,
`none` for a null pointer). -/
structure Wakeup where
  poll_ret : Int
  inputs : List (Int × Option snd_seq_event_t)

/-- What the environment hands to one run of `main`: the argument vector
and the value each external call returns.  `ioctl_ret` gives the result of
each `ioctl` request; `main` never reads it, as the source discards these
results.  `seq_addr_client` and `seq_addr_port` are what
`snd_seq_parse_address` stores in `seq_addr`. -/
structure Env where
  argv : List String
  open_ret : Int
  ioctl_ret : Ioctl → Int
  snd_seq_open_ret : Int
  snd_seq_set_client_name_ret : Int
  snd_seq_parse_address_ret : Int
  seq_addr_client : Int
  seq_addr_port : Int
  snd_seq_create_simple_port_ret : Int
  snd_seq_connect_from_ret : Int
  wakeups : List Wakeup

/-- The loop `for (int i = 0; i <= 127; ++i)` of `main`, over the list of
its indices: declares `keymap[i]` with `UI_SET_KEYBIT` when it is
positive. -/
def set_keybits (h : Headers) : List Nat → State → Except Halt State
  | [], s => .ok s
  | i :: is, s =>
    match (keymap h)[i]? with
    | none => .error ⟨Status.out_of_bounds i, s⟩
    | some key =>
      set_keybits h is (if key > 0 then s.call (Call.ioctl s.ui (Ioctl.UI_SET_KEYBIT key)) else s)

/-- The inner `do ... while (err > 0)` loop of `main`. -/
def drain (h : Headers) : List (Int × Option snd_seq_event_t) → State → Except Halt State
  | [], s => .error ⟨Status.waiting, s.call Call.snd_seq_event_input⟩
  | (err, event) :: rest, s =>
    let s := s.call Call.snd_seq_event_input
    if err < 0 then
      .ok s
    else
      match (match event with
             | some ev => handle_event h ev s
             | none => .ok s) with
      | .error e => .error e
      | .ok s => if err > 0 then drain h rest s else .ok s

/-- The outer `while (1)` loop of `main`; it returns when `poll` fails. -/
def dispatch_loop (h : Headers) : List Wakeup → State → Except Halt State
  | [], s => .error ⟨Status.waiting, (s.call Call.snd_seq_poll_descriptors).call Call.poll⟩
  | wk :: rest, s =>
    let s := s.call Call.snd_seq_poll_descriptors
    let s := s.call Call.poll
    if wk.poll_ret < 0 then
      .ok s
    else
      match drain h wk.inputs s with
      | .error e => .error e
      | .ok s => dispatch_loop h rest s

/-- Lines 80 to 93 of `main`: the setup of the virtual device.  No result
of `open` or `ioctl` is looked at; the value `open` returns is stored in
`ui` and passed on to every later call. -/
def main_uinput_setup (h : Headers) (env : Env) : Except Halt State :=
  match set_keybits h (List.range 128)
      ((State.mk env.open_ret [Call.sys_open "/dev/uinput"]).call
        (Call.ioctl env.open_ret (Ioctl.UI_SET_EVBIT h.EV_KEY))) with
  | .error e => .error e
  | .ok s =>
    let s := s.call (Call.ioctl s.ui (Ioctl.UI_DEV_SETUP "BUS_USB" 0x1234 0x5678 "MIDIOKBD"))
    let s := s.call (Call.ioctl s.ui Ioctl.UI_DEV_CREATE)
    .ok s

/-- Lines 95 to 125 of `main`: the five steps of the MIDI connection, each
followed by `if (err < 0) { fprintf(stderr, ...); exit(1); }`. -/
def main_connect (env : Env) (s : State) : Except Halt State :=
  let s := s.call Call.snd_seq_open
  if env.snd_seq_open_ret < 0 then
    .error ⟨Status.exited 1, s.call (Call.fprintf_error "snd_seq_open" env.snd_seq_open_ret)⟩
  else
  let s := s.call (Call.snd_seq_set_client_name "midiokbd")
  if env.snd_seq_set_client_name_ret < 0 then
    .error ⟨Status.exited 1,
      s.call (Call.fprintf_error "snd_seq_set_client_name" env.snd_seq_set_client_name_ret)⟩
  else
  let s := s.call (Call.snd_seq_parse_address env.argv[1]?)
  if env.snd_seq_parse_address_ret < 0 then
    .error ⟨Status.exited 1,
      s.call (Call.fprintf_error "snd_seq_parse_address" env.snd_seq_parse_address_ret)⟩
  else
  let s := s.call (Call.snd_seq_create_simple_port "midiokbd")
  if env.snd_seq_create_simple_port_ret < 0 then
    .error ⟨Status.exited 1,
      s.call (Call.fprintf_error "snd_seq_create_simple_port"
        env.snd_seq_create_simple_port_ret)⟩
  else
  let s := s.call (Call.snd_seq_connect_from env.seq_addr_client env.seq_addr_port)
  if env.snd_seq_connect_from_ret < 0 then
    .error ⟨Status.exited 1,
      s.call (Call.fprintf_error "snd_seq_connect_from" env.snd_seq_connect_from_ret)⟩
  else
    .ok s

/-- The function `main`: the check of the argument count, the setup of the
virtual device, the MIDI connection, the dispatch loop, and after the loop
`UI_DEV_DESTROY`, `close` and `return 0`.  The global `ui` is 0 until
`open` has returned. -/
def main (h : Headers) (env : Env) : Halt :=
  if env.argv.length ≠ 2 then
    ⟨Status.exited 1, (State.mk 0 []).call (Call.fprintf_usage env.argv[0]?)⟩
  else
    match main_uinput_setup h env with
    | .error e => e
    | .ok s =>
      match main_connect env s with
      | .error e => e
      | .ok s =>
        match dispatch_loop h env.wakeups (s.call Call.snd_seq_poll_descriptors_count) with
        | .error e => e
        | .ok s => ⟨Status.exited 0, (s.call (Call.ioctl s.ui Ioctl.UI_DEV_DESTROY)).call (Call.close s.ui)⟩

/-! ## Vocabulary of the statements -/

/-- The 26 letter key codes in the order A to Z. -/
def letter_keys (h : Headers) : List Int :=
  [ h.KEY_A, h.KEY_B, h.KEY_C, h.KEY_D, h.KEY_E, h.KEY_F, h.KEY_G, h.KEY_H, h.KEY_I,
    h.KEY_J, h.KEY_K, h.KEY_L, h.KEY_M, h.KEY_N, h.KEY_O, h.KEY_P, h.KEY_Q, h.KEY_R,
    h.KEY_S, h.KEY_T, h.KEY_U, h.KEY_V, h.KEY_W, h.KEY_X, h.KEY_Y, h.KEY_Z ]

/-- The translation of one event as the specification words it: a
note-on with velocity `> 0` on a mapped note gives key down, report; a
note-on with velocity 0 or a note-off on a mapped note gives key up,
report; anything else gives nothing.  A note is mapped when its entry in
`keymap` is not 0. -/
def translation (h : Headers) (ui : Int) (ev : snd_seq_event_t) : List Call :=
  match (keymap h)[ev.note]? with
  | none => []
  | some k =>
    if k = 0 then []
    else if (ev.type : Int) = h.SND_SEQ_EVENT_NOTEON ∧ 0 < ev.velocity then
      [ Call.write ui ⟨h.EV_KEY % 65536, k % 65536, 1, 0, 0⟩,
        Call.write ui ⟨h.EV_SYN % 65536, h.SYN_REPORT % 65536, 0, 0, 0⟩ ]
    else if ((ev.type : Int) = h.SND_SEQ_EVENT_NOTEON ∧ ev.velocity = 0) ∨
        (ev.type : Int) = h.SND_SEQ_EVENT_NOTEOFF then
      [ Call.write ui ⟨h.EV_KEY % 65536, k % 65536, 0, 0, 0⟩,
        Call.write ui ⟨h.EV_SYN % 65536, h.SYN_REPORT % 65536, 0, 0, 0⟩ ]
    else []

/-- A key event of the output stream: a written record of type `EV_KEY`. -/
def is_key (h : Headers) : Call → Prop
  | Call.write _ ie => ie.type = h.EV_KEY % 65536
  | _ => False

/-- A synchronisation event of the output stream: a written record of type
`EV_SYN` and code `SYN_REPORT`. -/
def is_sync (h : Headers) : Call → Prop
  | Call.write _ ie => ie.type = h.EV_SYN % 65536 ∧ ie.code = h.SYN_REPORT % 65536
  | _ => False

/-- The two records written for one key transition: key `kv.1` with value
`kv.2`, then the report. -/
def transition (h : Headers) (ui : Int) (kv : Int × Int) : List Call :=
  [ Call.write ui ⟨h.EV_KEY % 65536, kv.1 % 65536, kv.2, 0, 0⟩,
    Call.write ui ⟨h.EV_SYN % 65536, h.SYN_REPORT % 65536, 0, 0, 0⟩ ]

/-- The key codes declared to the device: the arguments of the
`UI_SET_KEYBIT` requests in a trace, in order. -/
def registered_keys : List Call → List Int
  | [] => []
  | Call.ioctl _ (Ioctl.UI_SET_KEYBIT key) :: cs => key :: registered_keys cs
  | _ :: cs => registered_keys cs

/-- The calls the dispatch loop can make: waiting for input, reading an
event, writing a record to the device. -/
def in_loop : Call → Bool
  | Call.write _ _ => true
  | Call.snd_seq_poll_descriptors => true
  | Call.poll => true
  | Call.snd_seq_event_input => true
  | _ => false

/-- The calls that set the virtual device up, for the value `ui` that
`open` returned: open, event bit, one key bit for each positive entry of
`keymap`, device setup, device creation. -/
def setup_calls (h : Headers) (ui : Int) : List Call :=
  [ Call.sys_open "/dev/uinput", Call.ioctl ui (Ioctl.UI_SET_EVBIT h.EV_KEY) ] ++
  ((keymap h).filter (fun k => 0 < k)).map (fun k => Call.ioctl ui (Ioctl.UI_SET_KEYBIT k)) ++
  [ Call.ioctl ui (Ioctl.UI_DEV_SETUP "BUS_USB" 0x1234 0x5678 "MIDIOKBD"),
    Call.ioctl ui Ioctl.UI_DEV_CREATE ]

/-- One of the five steps of the MIDI connection returns a negative
value. -/
def connect_fails (env : Env) : Prop :=
  env.snd_seq_open_ret < 0 ∨ env.snd_seq_set_client_name_ret < 0 ∨
  env.snd_seq_parse_address_ret < 0 ∨ env.snd_seq_create_simple_port_ret < 0 ∨
  env.snd_seq_connect_from_ret < 0

/-- A run in which every external call succeeds: `open` returns descriptor
3, the port `20:0` is found, one turn of the loop delivers a note-on and a
note-off for note 60, and the second `poll` fails. -/
def env_all_ok : Env where
  argv := ["midiokbd", "20:0"]
  open_ret := 3
  ioctl_ret := fun _ => 0
  snd_seq_open_ret := 0
  snd_seq_set_client_name_ret := 0
  snd_seq_parse_address_ret := 0
  seq_addr_client := 20
  seq_addr_port := 0
  snd_seq_create_simple_port_ret := 0
  snd_seq_connect_from_ret := 0
  wakeups := [⟨1, [(1, some ⟨6, 60, 100⟩), (0, some ⟨7, 60, 0⟩)]⟩, ⟨-1, []⟩]

/-- A run in which `open` and every `ioctl` fail with -1, the MIDI
connection succeeds and the first `poll` fails. -/
def env_uinput_fails : Env where
  argv := ["midiokbd", "20:0"]
  open_ret := -1
  ioctl_ret := fun _ => -1
  snd_seq_open_ret := 0
  snd_seq_set_client_name_ret := 0
  snd_seq_parse_address_ret := 0
  seq_addr_client := 20
  seq_addr_port := 0
  snd_seq_create_simple_port_ret := 0
  snd_seq_connect_from_ret := 0
  wakeups := [⟨-1, []⟩]

/-- A run with a port address that `snd_seq_parse_address` rejects with
-2; every call before it succeeds and `open` returns descriptor 3. -/
def env_bad_port : Env where
  argv := ["midiokbd", "nosuchport"]
  open_ret := 3
  ioctl_ret := fun _ => 0
  snd_seq_open_ret := 0
  snd_seq_set_client_name_ret := 0
  snd_seq_parse_address_ret := -2
  seq_addr_client := 0
  seq_addr_port := 0
  snd_seq_create_simple_port_ret := 0
  snd_seq_connect_from_ret := 0
  wakeups := []

/-- The events that one run of the inner loop of `main` passes to
`handle_event`, in order, and whether the loop ends within the scripted
replies. -/
def drain_events : List (Int × Option snd_seq_event_t) → List snd_seq_event_t × Bool
  | [] => ([], false)
  | (err, event) :: rest =>
    if err < 0 then ([], true)
    else if err > 0 then (event.toList ++ (drain_events rest).1, (drain_events rest).2)
    else (event.toList, true)

/-- The events that the dispatch loop passes to `handle_event`, in order,
over all its turns. -/
def loop_events : List Wakeup → List snd_seq_event_t
  | [] => []
  | wk :: rest =>
    if wk.poll_ret < 0 then []
    else if (drain_events wk.inputs).2 then (drain_events wk.inputs).1 ++ loop_events rest
    else (drain_events wk.inputs).1

/-- The output stream of a trace: its `write` calls, in order. -/
def writes (t : List Call) : List Call :=
  t.filter (fun c => match c with
    | Call.write _ _ => true
    | _ => false)

/-! ## Basic facts -/

theorem keymap_length (h : Headers) : (keymap h).length = 128 := rfl

theorem key_pressed_eq (h : Headers) (key : Int) (s : State) :
    key_pressed h key s =
      { ui := s.ui,
        trace := s.trace ++
          [ Call.write s.ui ⟨h.EV_KEY % 65536, key % 65536, 1, 0, 0⟩,
            Call.write s.ui ⟨h.EV_SYN % 65536, h.SYN_REPORT % 65536, 0, 0, 0⟩ ] } := by
  simp [key_pressed, uinput_emit, State.call]

theorem key_released_eq (h : Headers) (key : Int) (s : State) :
    key_released h key s =
      { ui := s.ui,
        trace := s.trace ++
          [ Call.write s.ui ⟨h.EV_KEY % 65536, key % 65536, 0, 0, 0⟩,
            Call.write s.ui ⟨h.EV_SYN % 65536, h.SYN_REPORT % 65536, 0, 0, 0⟩ ] } := by
  simp [key_released, uinput_emit, State.call]

theorem handle_event_note_on (h : Headers)
    (hne : h.SND_SEQ_EVENT_NOTEON ≠ h.SND_SEQ_EVENT_NOTEOFF)
    (ev : snd_seq_event_t) (k : Int) (s : State)
    (ht : (ev.type : Int) = h.SND_SEQ_EVENT_NOTEON)
    (hk : (keymap h)[ev.note]? = some k) (hk0 : k ≠ 0) :
    handle_event h ev s =
      .ok (if ev.velocity ≠ 0 then key_pressed h k s else key_released h k s) := by
  unfold handle_event
  simp [ht, hk, hk0, hne]

theorem handle_event_note_off (h : Headers)
    (hne : h.SND_SEQ_EVENT_NOTEON ≠ h.SND_SEQ_EVENT_NOTEOFF)
    (ev : snd_seq_event_t) (k : Int) (s : State)
    (ht : (ev.type : Int) = h.SND_SEQ_EVENT_NOTEOFF)
    (hk : (keymap h)[ev.note]? = some k) (hk0 : k ≠ 0) :
    handle_event h ev s = .ok (key_released h k s) := by
  unfold handle_event
  simp [ht, hk, hk0, hne, Ne.symm hne]

theorem handle_event_other (h : Headers) (ev : snd_seq_event_t) (s : State)
    (hon : (ev.type : Int) ≠ h.SND_SEQ_EVENT_NOTEON)
    (hoff : (ev.type : Int) ≠ h.SND_SEQ_EVENT_NOTEOFF) :
    handle_event h ev s = .ok s := by
  simp [handle_event, hon, hoff]

theorem handle_event_unmapped (h : Headers) (ev : snd_seq_event_t) (s : State)
    (hk : (keymap h)[ev.note]? = some 0) :
    handle_event h ev s = .ok s := by
  simp [handle_event, hk]

/-! ## The note-to-key table (C1) -/

/-- C1. For every note number `n` with `60 ≤ n ≤ 85` the entry of `keymap`
at `n` is the `(n-60)`-th key code in the order A..Z; for every other `n`
below 128 the entry is 0; and `handle_event` returns without emitting
anything for an event whose note has entry 0. -/
theorem keymap_letters (h : Headers) (n : Nat) :
    (60 ≤ n → n ≤ 85 →
      ∃ k, (letter_keys h)[n - 60]? = some k ∧ (keymap h)[n]? = some k) ∧
    (n < 60 ∨ (85 < n ∧ n < 128) → (keymap h)[n]? = some 0) ∧
    (∀ (ev : snd_seq_event_t) (s : State),
      ev.note = n → (keymap h)[n]? = some 0 → handle_event h ev s = .ok s) := by
  refine ⟨?_, ?_, ?_⟩
  · intro h1 h2
    interval_cases n <;> exact ⟨_, rfl, rfl⟩
  · rintro (h1 | ⟨h1, h2⟩)
    · interval_cases n <;> rfl
    · interval_cases n <;> rfl
  · intro ev s hn hk
    subst hn
    exact handle_event_unmapped h ev s hk

/-- Instances of C1 with the Linux key codes: note 72 is `KEY_M`, notes 12
and 100 are unmapped, and a note-on for note 100 emits nothing. -/
theorem keymap_letters_witness :
    (∃ k, (letter_keys linux_headers)[72 - 60]? = some k ∧
        (keymap linux_headers)[72]? = some k) ∧
    (keymap linux_headers)[12]? = some 0 ∧
    (keymap linux_headers)[100]? = some 0 ∧
    handle_event linux_headers ⟨6, 100, 90⟩ ⟨3, []⟩ = .ok ⟨3, []⟩ :=
  ⟨(keymap_letters linux_headers 72).1 (by decide) (by decide),
   (keymap_letters linux_headers 12).2.1 (Or.inl (by decide)),
   (keymap_letters linux_headers 100).2.1 (Or.inr ⟨by decide, by decide⟩),
   (keymap_letters linux_headers 100).2.2 ⟨6, 100, 90⟩ ⟨3, []⟩ rfl rfl⟩

/-! ## Single events (C2, C3, C5) -/

/-- C2. For a mapped note (`keymap` entry `k ≠ 0`), a note-on with velocity
`> 0` followed by a note-off of the same note, any velocity, writes exactly
the four records key `k` down, report, key `k` up, report, and nothing
else.  The two event type constants are taken to be different. -/
theorem note_on_then_note_off (h : Headers)
    (hne : h.SND_SEQ_EVENT_NOTEON ≠ h.SND_SEQ_EVENT_NOTEOFF)
    (evOn evOff : snd_seq_event_t) (k : Int) (s : State)
    (hon : (evOn.type : Int) = h.SND_SEQ_EVENT_NOTEON)
    (hoff : (evOff.type : Int) = h.SND_SEQ_EVENT_NOTEOFF)
    (hnote : evOff.note = evOn.note)
    (hk : (keymap h)[evOn.note]? = some k) (hk0 : k ≠ 0)
    (hv : 0 < evOn.velocity) :
    handle_events h [evOn, evOff] s =
      .ok { ui := s.ui,
            trace := s.trace ++
              [ Call.write s.ui ⟨h.EV_KEY % 65536, k % 65536, 1, 0, 0⟩,
                Call.write s.ui ⟨h.EV_SYN % 65536, h.SYN_REPORT % 65536, 0, 0, 0⟩,
                Call.write s.ui ⟨h.EV_KEY % 65536, k % 65536, 0, 0, 0⟩,
                Call.write s.ui ⟨h.EV_SYN % 65536, h.SYN_REPORT % 65536, 0, 0, 0⟩ ] } := by
  have hv0 : evOn.velocity ≠ 0 := Nat.pos_iff_ne_zero.mp hv
  have hk2 : (keymap h)[evOff.note]? = some k := by rw [hnote]; exact hk
  simp only [handle_events]
  rw [handle_event_note_on h hne evOn k s hon hk hk0]
  simp only [hv0, ne_eq, not_false_eq_true, if_true]
  rw [handle_event_note_off h hne evOff k _ hoff hk2 hk0]
  simp [key_pressed_eq, key_released_eq]

/-- Instance of C2 with the Linux constants: note 60 (`KEY_A`, code 30),
note-on with velocity 100, note-off with velocity 0. -/
theorem note_on_then_note_off_witness :
    handle_events linux_headers [⟨6, 60, 100⟩, ⟨7, 60, 0⟩] ⟨3, []⟩ =
      .ok { ui := 3,
            trace := [] ++
              [ Call.write 3 ⟨1 % 65536, 30 % 65536, 1, 0, 0⟩,
                Call.write 3 ⟨0 % 65536, 0 % 65536, 0, 0, 0⟩,
                Call.write 3 ⟨1 % 65536, 30 % 65536, 0, 0, 0⟩,
                Call.write 3 ⟨0 % 65536, 0 % 65536, 0, 0, 0⟩ ] } :=
  note_on_then_note_off linux_headers (by decide) ⟨6, 60, 100⟩ ⟨7, 60, 0⟩ 30 ⟨3, []⟩
    rfl rfl rfl rfl (by decide) (by decide)

/-- C3. For a mapped note (`keymap` entry `k ≠ 0`), a note-on with velocity
0 writes exactly the two records key `k` up, report; no record written has
value 1.  The two event type constants are taken to be different. -/
theorem note_on_zero_velocity (h : Headers)
    (hne : h.SND_SEQ_EVENT_NOTEON ≠ h.SND_SEQ_EVENT_NOTEOFF)
    (ev : snd_seq_event_t) (k : Int) (s : State)
    (ht : (ev.type : Int) = h.SND_SEQ_EVENT_NOTEON)
    (hk : (keymap h)[ev.note]? = some k) (hk0 : k ≠ 0)
    (hv : ev.velocity = 0) :
    ∃ out : List Call,
      handle_event h ev s = .ok { ui := s.ui, trace := s.trace ++ out } ∧
      out = [ Call.write s.ui ⟨h.EV_KEY % 65536, k % 65536, 0, 0, 0⟩,
              Call.write s.ui ⟨h.EV_SYN % 65536, h.SYN_REPORT % 65536, 0, 0, 0⟩ ] ∧
      ∀ (fd : Int) (ie : input_event), Call.write fd ie ∈ out → ie.value ≠ 1 := by
  refine ⟨_, ?_, rfl, ?_⟩
  · rw [handle_event_note_on h hne ev k s ht hk hk0]
    simp [hv, key_released_eq]
  · intro fd ie hmem
    simp only [List.mem_cons, Call.write.injEq, List.mem_singleton, List.not_mem_nil,
      or_false] at hmem
    rcases hmem with ⟨_, rfl⟩ | ⟨_, rfl⟩ <;> simp

/-- Instance of C3 with the Linux constants: note-on for note 61 (`KEY_B`,
code 48) with velocity 0. -/
theorem note_on_zero_velocity_witness :
    ∃ out : List Call,
      handle_event linux_headers ⟨6, 61, 0⟩ ⟨3, []⟩ = .ok { ui := 3, trace := [] ++ out } ∧
      out = [ Call.write 3 ⟨1 % 65536, 48 % 65536, 0, 0, 0⟩,
              Call.write 3 ⟨0 % 65536, 0 % 65536, 0, 0, 0⟩ ] ∧
      ∀ (fd : Int) (ie : input_event), Call.write fd ie ∈ out → ie.value ≠ 1 :=
  note_on_zero_velocity linux_headers (by decide) ⟨6, 61, 0⟩ 48 ⟨3, []⟩
    rfl rfl (by decide) rfl

/-- C5. An event whose type is neither note-on nor note-off, whatever its
payload, and a note-on or note-off whose note has `keymap` entry 0,
whatever its velocity, leave the state as it is: `handle_event` makes no
call at all. -/
theorem silent_drop (h : Headers) (ev : snd_seq_event_t) (s : State)
    (hdrop : ((ev.type : Int) ≠ h.SND_SEQ_EVENT_NOTEON ∧
                (ev.type : Int) ≠ h.SND_SEQ_EVENT_NOTEOFF) ∨
             (keymap h)[ev.note]? = some 0) :
    handle_event h ev s = .ok s := by
  rcases hdrop with ⟨hon, hoff⟩ | hk
  · exact handle_event_other h ev s hon hoff
  · exact handle_event_unmapped h ev s hk

/-- Instances of C5 with the Linux constants: a controller event (type 10)
and a note-off for the unmapped note 59. -/
theorem silent_drop_witness :
    handle_event linux_headers ⟨10, 60, 127⟩ ⟨3, []⟩ = .ok ⟨3, []⟩ ∧
    handle_event linux_headers ⟨7, 59, 64⟩ ⟨3, []⟩ = .ok ⟨3, []⟩ :=
  ⟨silent_drop linux_headers ⟨10, 60, 127⟩ ⟨3, []⟩ (Or.inl ⟨by decide, by decide⟩),
   silent_drop linux_headers ⟨7, 59, 64⟩ ⟨3, []⟩ (Or.inr rfl)⟩

/-! ## Streams of events (C6, C4) -/

theorem keymap_in_range (h : Headers) (n : Nat) (hn : n < 128) :
    ∃ k, (keymap h)[n]? = some k :=
  ⟨(keymap h)[n], List.getElem?_eq_getElem (by rw [keymap_length]; exact hn)⟩

theorem keymap_out_of_range (h : Headers) (n : Nat) (hn : 128 ≤ n) :
    (keymap h)[n]? = none :=
  List.getElem?_eq_none (by rw [keymap_length]; exact hn)

theorem handle_event_translation (h : Headers)
    (hne : h.SND_SEQ_EVENT_NOTEON ≠ h.SND_SEQ_EVENT_NOTEOFF)
    (ev : snd_seq_event_t) (s : State)
    (hin : ((ev.type : Int) = h.SND_SEQ_EVENT_NOTEON ∨
            (ev.type : Int) = h.SND_SEQ_EVENT_NOTEOFF) → ev.note < 128) :
    handle_event h ev s = .ok ⟨s.ui, s.trace ++ translation h s.ui ev⟩ := by
  by_cases hon : (ev.type : Int) = h.SND_SEQ_EVENT_NOTEON
  · obtain ⟨k, hk⟩ := keymap_in_range h ev.note (hin (Or.inl hon))
    by_cases hk0 : k = 0
    · subst hk0
      rw [handle_event_unmapped h ev s hk]
      simp [translation, hk]
    · rw [handle_event_note_on h hne ev k s hon hk hk0]
      by_cases hv : ev.velocity = 0
      · simp [translation, hk, hk0, hon, hv, key_released_eq]
      · have hv' : 0 < ev.velocity := Nat.pos_of_ne_zero hv
        simp [translation, hk, hk0, hon, hv, hv', key_pressed_eq]
  · by_cases hoff : (ev.type : Int) = h.SND_SEQ_EVENT_NOTEOFF
    · obtain ⟨k, hk⟩ := keymap_in_range h ev.note (hin (Or.inr hoff))
      by_cases hk0 : k = 0
      · subst hk0
        rw [handle_event_unmapped h ev s hk]
        simp [translation, hk]
      · rw [handle_event_note_off h hne ev k s hoff hk hk0]
        have hne' : ¬ h.SND_SEQ_EVENT_NOTEOFF = h.SND_SEQ_EVENT_NOTEON := fun e => hne e.symm
        simp [translation, hk, hk0, hoff, hne', key_released_eq]
    · rw [handle_event_other h ev s hon hoff]
      cases hk : (keymap h)[ev.note]? with
      | none => simp [translation, hk]
      | some k => simp [translation, hk, hon, hoff]

/-- C6. With distinct note-on and note-off type constants, handling a list
of events in order appends to the trace the concatenation, in order, of
the translation of each event, which depends on that event alone (events
of note type carry a note in 0..127).  The stream note-on(60,100),
note-off(60,0), note-on(61,0) gives key A down, report, key A up, report,
key B up, report. -/
theorem stream_translation (h : Headers)
    (hne : h.SND_SEQ_EVENT_NOTEON ≠ h.SND_SEQ_EVENT_NOTEOFF) :
    (∀ (evs : List snd_seq_event_t) (s : State),
      (∀ ev ∈ evs, ((ev.type : Int) = h.SND_SEQ_EVENT_NOTEON ∨
          (ev.type : Int) = h.SND_SEQ_EVENT_NOTEOFF) → ev.note < 128) →
      handle_events h evs s =
        .ok ⟨s.ui, s.trace ++ (evs.map (translation h s.ui)).flatten⟩) ∧
    (∀ (tOn tOff : Nat) (s : State),
      (tOn : Int) = h.SND_SEQ_EVENT_NOTEON → (tOff : Int) = h.SND_SEQ_EVENT_NOTEOFF →
      h.KEY_A ≠ 0 → h.KEY_B ≠ 0 →
      handle_events h [⟨tOn, 60, 100⟩, ⟨tOff, 60, 0⟩, ⟨tOn, 61, 0⟩] s =
        .ok ⟨s.ui, s.trace ++
          [ Call.write s.ui ⟨h.EV_KEY % 65536, h.KEY_A % 65536, 1, 0, 0⟩,
            Call.write s.ui ⟨h.EV_SYN % 65536, h.SYN_REPORT % 65536, 0, 0, 0⟩,
            Call.write s.ui ⟨h.EV_KEY % 65536, h.KEY_A % 65536, 0, 0, 0⟩,
            Call.write s.ui ⟨h.EV_SYN % 65536, h.SYN_REPORT % 65536, 0, 0, 0⟩,
            Call.write s.ui ⟨h.EV_KEY % 65536, h.KEY_B % 65536, 0, 0, 0⟩,
            Call.write s.ui ⟨h.EV_SYN % 65536, h.SYN_REPORT % 65536, 0, 0, 0⟩ ]⟩) := by
  have main : ∀ (evs : List snd_seq_event_t) (s : State),
      (∀ ev ∈ evs, ((ev.type : Int) = h.SND_SEQ_EVENT_NOTEON ∨
          (ev.type : Int) = h.SND_SEQ_EVENT_NOTEOFF) → ev.note < 128) →
      handle_events h evs s =
        .ok ⟨s.ui, s.trace ++ (evs.map (translation h s.ui)).flatten⟩ := by
    intro evs
    induction evs with
    | nil => intro s _; simp [handle_events]
    | cons ev evs ih =>
      intro s hin
      simp only [handle_events]
      rw [handle_event_translation h hne ev s (hin ev (List.mem_cons_self _ _))]
      simp only
      rw [ih _ (fun e he => hin e (List.mem_cons_of_mem _ he))]
      simp [List.append_assoc]
  refine ⟨main, ?_⟩
  intro tOn tOff s hOn hOff hA hB
  rw [main _ s (by
    intro ev hev _
    simp only [List.mem_cons, List.mem_singleton, List.not_mem_nil, or_false] at hev
    rcases hev with rfl | rfl | rfl <;> simp)]
  have k60 : (keymap h)[60]? = some h.KEY_A := rfl
  have k61 : (keymap h)[61]? = some h.KEY_B := rfl
  have hne' : ¬ h.SND_SEQ_EVENT_NOTEOFF = h.SND_SEQ_EVENT_NOTEON := fun e => hne e.symm
  simp [translation, k60, k61, hOn, hOff, hA, hB, hne, hne']

/-- Instances of C6 with the Linux constants (`KEY_A` is 30, `KEY_B` is
48): a stream with a controller event and an unmapped note, and the
end-to-end scenario of C6. -/
theorem stream_translation_witness :
    handle_events linux_headers [⟨6, 62, 1⟩, ⟨10, 200, 3⟩, ⟨7, 62, 9⟩, ⟨6, 0, 9⟩] ⟨3, []⟩ =
      .ok ⟨3, [] ++ (([⟨6, 62, 1⟩, ⟨10, 200, 3⟩, ⟨7, 62, 9⟩, ⟨6, 0, 9⟩] :
        List snd_seq_event_t).map (translation linux_headers 3)).flatten⟩ ∧
    handle_events linux_headers [⟨6, 60, 100⟩, ⟨7, 60, 0⟩, ⟨6, 61, 0⟩] ⟨3, []⟩ =
      .ok ⟨3, [] ++
        [ Call.write 3 ⟨1 % 65536, 30 % 65536, 1, 0, 0⟩,
          Call.write 3 ⟨0 % 65536, 0 % 65536, 0, 0, 0⟩,
          Call.write 3 ⟨1 % 65536, 30 % 65536, 0, 0, 0⟩,
          Call.write 3 ⟨0 % 65536, 0 % 65536, 0, 0, 0⟩,
          Call.write 3 ⟨1 % 65536, 48 % 65536, 0, 0, 0⟩,
          Call.write 3 ⟨0 % 65536, 0 % 65536, 0, 0, 0⟩ ]⟩ :=
  ⟨(stream_translation linux_headers (by decide)).1
      [⟨6, 62, 1⟩, ⟨10, 200, 3⟩, ⟨7, 62, 9⟩, ⟨6, 0, 9⟩] ⟨3, []⟩
      (by
        intro ev hev ht
        simp only [List.mem_cons, List.mem_singleton, List.not_mem_nil, or_false] at hev
        rcases hev with rfl | rfl | rfl | rfl
        · decide
        · exact absurd ht (by decide)
        · decide
        · decide),
   (stream_translation linux_headers (by decide)).2 6 7 ⟨3, []⟩ rfl rfl
      (by decide) (by decide)⟩

theorem handle_event_transitions (h : Headers) (ev : snd_seq_event_t) (s : State)
    (hin : ((ev.type : Int) = h.SND_SEQ_EVENT_NOTEON ∨
            (ev.type : Int) = h.SND_SEQ_EVENT_NOTEOFF) → ev.note < 128) :
    ∃ kvs : List (Int × Int),
      handle_event h ev s =
        .ok ⟨s.ui, s.trace ++ (kvs.map (transition h s.ui)).flatten⟩ ∧
      ∀ kv ∈ kvs, kv.1 ≠ 0 ∧ (keymap h)[ev.note]? = some kv.1 := by
  by_cases ht : (ev.type : Int) ≠ h.SND_SEQ_EVENT_NOTEON ∧
      (ev.type : Int) ≠ h.SND_SEQ_EVENT_NOTEOFF
  · exact ⟨[], by simp [handle_event_other h ev s ht.1 ht.2], by simp⟩
  · have hnote : (ev.type : Int) = h.SND_SEQ_EVENT_NOTEON ∨
        (ev.type : Int) = h.SND_SEQ_EVENT_NOTEOFF := by
      by_cases hon : (ev.type : Int) = h.SND_SEQ_EVENT_NOTEON
      · exact Or.inl hon
      · by_cases hoff : (ev.type : Int) = h.SND_SEQ_EVENT_NOTEOFF
        · exact Or.inr hoff
        · exact absurd ⟨hon, hoff⟩ ht
    obtain ⟨k, hk⟩ := keymap_in_range h ev.note (hin hnote)
    by_cases hk0 : k = 0
    · subst hk0
      exact ⟨[], by simp [handle_event_unmapped h ev s hk], by simp⟩
    · have hrun : handle_event h ev s =
          .ok (if (ev.type : Int) = h.SND_SEQ_EVENT_NOTEOFF then
                key_released h k
                  (if (ev.type : Int) = h.SND_SEQ_EVENT_NOTEON then
                    (if ev.velocity ≠ 0 then key_pressed h k s else key_released h k s)
                  else s)
              else
                (if (ev.type : Int) = h.SND_SEQ_EVENT_NOTEON then
                  (if ev.velocity ≠ 0 then key_pressed h k s else key_released h k s)
                else s)) := by
        unfold handle_event
        rw [if_neg ht]
        simp only [hk]
        rw [if_neg hk0]
      rw [hrun]
      by_cases hon : (ev.type : Int) = h.SND_SEQ_EVENT_NOTEON
      · by_cases hoff : (ev.type : Int) = h.SND_SEQ_EVENT_NOTEOFF
        · by_cases hv : ev.velocity = 0
          · refine ⟨[(k, 0), (k, 0)], ?_, by simp [hk, hk0]⟩
            rw [if_pos hoff, if_pos hon, if_neg (not_not.mpr hv)]
            simp [key_released_eq, transition]
          · refine ⟨[(k, 1), (k, 0)], ?_, by simp [hk, hk0]⟩
            rw [if_pos hoff, if_pos hon, if_pos hv]
            simp [key_pressed_eq, key_released_eq, transition]
        · by_cases hv : ev.velocity = 0
          · refine ⟨[(k, 0)], ?_, by simp [hk, hk0]⟩
            rw [if_neg hoff, if_pos hon, if_neg (not_not.mpr hv)]
            simp [key_released_eq, transition]
          · refine ⟨[(k, 1)], ?_, by simp [hk, hk0]⟩
            rw [if_neg hoff, if_pos hon, if_pos hv]
            simp [key_pressed_eq, transition]
      · have hoff : (ev.type : Int) = h.SND_SEQ_EVENT_NOTEOFF := hnote.resolve_left hon
        refine ⟨[(k, 0)], ?_, by simp [hk, hk0]⟩
        rw [if_pos hoff, if_neg hon]
        simp [key_released_eq, transition]

theorem handle_events_transitions (h : Headers) (evs : List snd_seq_event_t) :
    ∀ (s : State),
      (∀ ev ∈ evs, ((ev.type : Int) = h.SND_SEQ_EVENT_NOTEON ∨
          (ev.type : Int) = h.SND_SEQ_EVENT_NOTEOFF) → ev.note < 128) →
      ∃ kvs : List (Int × Int),
        handle_events h evs s =
          .ok ⟨s.ui, s.trace ++ (kvs.map (transition h s.ui)).flatten⟩ := by
  induction evs with
  | nil => intro s _; exact ⟨[], by simp [handle_events]⟩
  | cons ev evs ih =>
    intro s hin
    obtain ⟨kvs1, h1, _⟩ := handle_event_transitions h ev s (hin ev (List.mem_cons_self _ _))
    obtain ⟨kvs2, h2⟩ := ih ⟨s.ui, s.trace ++ (kvs1.map (transition h s.ui)).flatten⟩
      (fun e he => hin e (List.mem_cons_of_mem _ he))
    refine ⟨kvs1 ++ kvs2, ?_⟩
    simp only [handle_events]
    rw [h1]
    simp only
    rw [h2]
    simp [List.append_assoc]

theorem transitions_head (h : Headers) (ui : Int) (kvs : List (Int × Int)) (c : Call)
    (hc : ((kvs.map (transition h ui)).flatten)[0]? = some c) : is_key h c := by
  cases kvs with
  | nil => simp at hc
  | cons kv kvs =>
    simp [transition] at hc
    subst hc
    simp [is_key]

theorem transitions_positions (h : Headers)
    (hd : h.EV_KEY % 65536 ≠ h.EV_SYN % 65536) (ui : Int) (kvs : List (Int × Int)) :
    (∀ (i : Nat) (c : Call), ((kvs.map (transition h ui)).flatten)[i]? = some c → is_key h c →
      (∃ c1, ((kvs.map (transition h ui)).flatten)[i + 1]? = some c1 ∧ is_sync h c1) ∧
      (∀ c2, ((kvs.map (transition h ui)).flatten)[i + 2]? = some c2 →
        is_key h c2 ∧ ¬ is_sync h c2)) ∧
    (∀ (i : Nat) (c : Call), ((kvs.map (transition h ui)).flatten)[i]? = some c → is_sync h c →
      ∃ (j : Nat) (c0 : Call), i = j + 1 ∧
        ((kvs.map (transition h ui)).flatten)[j]? = some c0 ∧ is_key h c0) := by
  have hks : ∀ c, is_key h c → ¬ is_sync h c := by
    intro c hk hs
    cases c <;> simp [is_key, is_sync] at hk hs
    exact hd (hk.symm.trans hs.1)
  induction kvs with
  | nil => simp
  | cons kv kvs ih =>
    have hout : ((kv :: kvs).map (transition h ui)).flatten =
        Call.write ui ⟨h.EV_KEY % 65536, kv.1 % 65536, kv.2, 0, 0⟩ ::
        Call.write ui ⟨h.EV_SYN % 65536, h.SYN_REPORT % 65536, 0, 0, 0⟩ ::
        (kvs.map (transition h ui)).flatten := by
      simp [transition]
    rw [hout]
    have hA : is_key h (Call.write ui ⟨h.EV_KEY % 65536, kv.1 % 65536, kv.2, 0, 0⟩) := by
      simp [is_key]
    have hB : is_sync h (Call.write ui ⟨h.EV_SYN % 65536, h.SYN_REPORT % 65536, 0, 0, 0⟩) := by
      simp [is_sync]
    constructor
    · intro i c hc hkey
      match i, hc with
      | 0, hc =>
        refine ⟨⟨Call.write ui ⟨h.EV_SYN % 65536, h.SYN_REPORT % 65536, 0, 0, 0⟩, by simp, hB⟩, ?_⟩
        intro c2 hc2
        have hc2' : ((kvs.map (transition h ui)).flatten)[0]? = some c2 := by simpa using hc2
        have hk2 := transitions_head h ui kvs c2 hc2'
        exact ⟨hk2, hks c2 hk2⟩
      | 1, hc =>
        have hcB : Call.write ui ⟨h.EV_SYN % 65536, h.SYN_REPORT % 65536, 0, 0, 0⟩ = c := by
          simpa using hc
        subst hcB
        exact absurd hB (hks _ hkey)
      | i + 2, hc =>
        have hc' : ((kvs.map (transition h ui)).flatten)[i]? = some c := by simpa using hc
        have := ih.1 i c hc' hkey
        simpa using this
    · intro i c hc hsync
      match i, hc with
      | 0, hc =>
        have hcA : Call.write ui ⟨h.EV_KEY % 65536, kv.1 % 65536, kv.2, 0, 0⟩ = c := by
          simpa using hc
        subst hcA
        exact absurd hsync (hks _ hA)
      | 1, _ =>
        exact ⟨0, _, rfl, by simp, hA⟩
      | i + 2, hc =>
        have hc' : ((kvs.map (transition h ui)).flatten)[i]? = some c := by simpa using hc
        obtain ⟨j, c0, hij, hj, hk0⟩ := ih.2 i c hc' hsync
        refine ⟨j + 2, c0, by omega, by simpa using hj, hk0⟩

theorem transitions_members (h : Headers) (ui : Int) (kvs : List (Int × Int)) :
    ∀ c ∈ (kvs.map (transition h ui)).flatten, is_key h c ∨ is_sync h c := by
  intro c hc
  simp only [List.mem_flatten, List.mem_map] at hc
  obtain ⟨l, ⟨kv, _, rfl⟩, hmem⟩ := hc
  simp only [transition, List.mem_cons, List.mem_singleton, List.not_mem_nil, or_false] at hmem
  rcases hmem with rfl | rfl
  · left; simp [is_key]
  · right; simp [is_sync]

/-- C4. For every list of events handled in order (events of note type
carry a note in 0..127), the calls added to the trace are writes of key
events and report events only, and in this output every key event is
directly followed by one report event, after which comes the next key
event or nothing, and every report event has a key event directly before
it.  The type constants `EV_KEY` and `EV_SYN` are taken to be different
as 16-bit values. -/
theorem key_events_paired_with_sync (h : Headers)
    (hd : h.EV_KEY % 65536 ≠ h.EV_SYN % 65536)
    (evs : List snd_seq_event_t) (s : State)
    (hin : ∀ ev ∈ evs, ((ev.type : Int) = h.SND_SEQ_EVENT_NOTEON ∨
        (ev.type : Int) = h.SND_SEQ_EVENT_NOTEOFF) → ev.note < 128) :
    ∃ out : List Call,
      handle_events h evs s = .ok ⟨s.ui, s.trace ++ out⟩ ∧
      (∀ c ∈ out, is_key h c ∨ is_sync h c) ∧
      (∀ (i : Nat) (c : Call), out[i]? = some c → is_key h c →
        (∃ c1, out[i + 1]? = some c1 ∧ is_sync h c1) ∧
        (∀ c2, out[i + 2]? = some c2 → is_key h c2 ∧ ¬ is_sync h c2)) ∧
      (∀ (i : Nat) (c : Call), out[i]? = some c → is_sync h c →
        ∃ (j : Nat) (c0 : Call), i = j + 1 ∧ out[j]? = some c0 ∧ is_key h c0) := by
  obtain ⟨kvs, hk⟩ := handle_events_transitions h evs s hin
  exact ⟨_, hk, transitions_members h s.ui kvs,
    (transitions_positions h hd s.ui kvs).1, (transitions_positions h hd s.ui kvs).2⟩

/-- Instance of C4 with the Linux constants on the stream note-on(60,100),
controller event, note-off(60,0), note-on(61,0), note-on(20,5). -/
theorem key_events_paired_with_sync_witness :
    ∃ out : List Call,
      handle_events linux_headers
        [⟨6, 60, 100⟩, ⟨10, 7, 1⟩, ⟨7, 60, 0⟩, ⟨6, 61, 0⟩, ⟨6, 20, 5⟩] ⟨3, []⟩ =
          .ok ⟨3, [] ++ out⟩ ∧
      (∀ c ∈ out, is_key linux_headers c ∨ is_sync linux_headers c) ∧
      (∀ (i : Nat) (c : Call), out[i]? = some c → is_key linux_headers c →
        (∃ c1, out[i + 1]? = some c1 ∧ is_sync linux_headers c1) ∧
        (∀ c2, out[i + 2]? = some c2 → is_key linux_headers c2 ∧ ¬ is_sync linux_headers c2)) ∧
      (∀ (i : Nat) (c : Call), out[i]? = some c → is_sync linux_headers c →
        ∃ (j : Nat) (c0 : Call), i = j + 1 ∧ out[j]? = some c0 ∧ is_key linux_headers c0) :=
  key_events_paired_with_sync linux_headers (by decide)
    [⟨6, 60, 100⟩, ⟨10, 7, 1⟩, ⟨7, 60, 0⟩, ⟨6, 61, 0⟩, ⟨6, 20, 5⟩] ⟨3, []⟩
    (by
      intro ev hev _
      simp only [List.mem_cons, List.mem_singleton, List.not_mem_nil, or_false] at hev
      rcases hev with rfl | rfl | rfl | rfl | rfl <;> simp)

/-! ## Lookup bounds (C10) -/

theorem handle_event_out_of_range (h : Headers) (ev : snd_seq_event_t) (s : State)
    (ht : (ev.type : Int) = h.SND_SEQ_EVENT_NOTEON ∨
          (ev.type : Int) = h.SND_SEQ_EVENT_NOTEOFF)
    (hn : 128 ≤ ev.note) :
    handle_event h ev s = .error ⟨Status.out_of_bounds ev.note, s⟩ := by
  have hnone := keymap_out_of_range h ev.note hn
  have ht' : ¬ ((ev.type : Int) ≠ h.SND_SEQ_EVENT_NOTEON ∧
      (ev.type : Int) ≠ h.SND_SEQ_EVENT_NOTEOFF) := by
    rintro ⟨h1, h2⟩
    rcases ht with ht | ht
    · exact h1 ht
    · exact h2 ht
  unfold handle_event
  rw [if_neg ht']
  simp only [hnone]

/-- C10 fails at note 128, which fits the event's 8-bit note field: a
note-on for it makes `handle_event` read `keymap` at index 128, outside
the table, and nothing is written or reported. -/
theorem lookup_past_table_not_rejected :
    (keymap linux_headers)[128]? = none ∧
    handle_event linux_headers ⟨6, 128, 64⟩ ⟨3, []⟩ =
      .error ⟨Status.out_of_bounds 128, ⟨3, []⟩⟩ := by
  constructor
  · rfl
  · rfl

/-- C10 as amended. For a note-on or note-off event whose note is in
0..127, `handle_event` reads `keymap` inside its bounds and returns; it
has no range check, so for a note of 128 or more the note is used as the
index as it is, outside the table, with no call made. -/
theorem lookup_in_bounds_for_midi_notes (h : Headers) (ev : snd_seq_event_t) (s : State)
    (ht : (ev.type : Int) = h.SND_SEQ_EVENT_NOTEON ∨
          (ev.type : Int) = h.SND_SEQ_EVENT_NOTEOFF) :
    (ev.note < 128 →
      (∃ key, (keymap h)[ev.note]? = some key) ∧ ∃ s', handle_event h ev s = .ok s') ∧
    (128 ≤ ev.note →
      (keymap h)[ev.note]? = none ∧
      handle_event h ev s = .error ⟨Status.out_of_bounds ev.note, s⟩) := by
  constructor
  · intro hn
    refine ⟨keymap_in_range h ev.note hn, ?_⟩
    obtain ⟨kvs, hk, _⟩ := handle_event_transitions h ev s (fun _ => hn)
    exact ⟨_, hk⟩
  · intro hn
    exact ⟨keymap_out_of_range h ev.note hn, handle_event_out_of_range h ev s ht hn⟩

/-- Instances of the amended C10 with the Linux constants: a note-off for
note 127 is looked up in bounds, a note-off for note 255 is not. -/
theorem lookup_in_bounds_for_midi_notes_witness :
    ((∃ key, (keymap linux_headers)[127]? = some key) ∧
      ∃ s', handle_event linux_headers ⟨7, 127, 0⟩ ⟨3, []⟩ = .ok s') ∧
    ((keymap linux_headers)[255]? = none ∧
      handle_event linux_headers ⟨7, 255, 0⟩ ⟨3, []⟩ =
        .error ⟨Status.out_of_bounds 255, ⟨3, []⟩⟩) :=
  ⟨(lookup_in_bounds_for_midi_notes linux_headers ⟨7, 127, 0⟩ ⟨3, []⟩
      (Or.inr rfl)).1 (by decide),
   (lookup_in_bounds_for_midi_notes linux_headers ⟨7, 255, 0⟩ ⟨3, []⟩
      (Or.inr rfl)).2 (by decide)⟩

/-! ## Facts about `main` -/

theorem keymap_eq (h : Headers) :
    keymap h = List.replicate 60 0 ++ letter_keys h ++ List.replicate 42 0 := rfl

theorem set_keybits_drop (h : Headers) (l : List Int) :
    ∀ (n : Nat) (s : State), (keymap h).drop n = l →
      set_keybits h (List.range' n l.length) s =
        .ok ⟨s.ui, s.trace ++
          (l.filter (fun k => 0 < k)).map (fun k => Call.ioctl s.ui (Ioctl.UI_SET_KEYBIT k))⟩ := by
  induction l with
  | nil => intro n s _; simp [set_keybits]
  | cons k l ih =>
    intro n s hdrop
    have hk : (keymap h)[n]? = some k := by
      have := congrArg List.head? hdrop
      simpa [List.head?_drop] using this
    have hl : (keymap h).drop (n + 1) = l := by
      have := congrArg List.tail hdrop
      simpa [List.tail_drop] using this
    simp only [List.length_cons, List.range'_succ, set_keybits, hk]
    by_cases hpos : 0 < k
    · rw [if_pos hpos, ih (n + 1) _ hl]
      simp [State.call, List.filter_cons, hpos]
    · rw [if_neg hpos, ih (n + 1) _ hl]
      simp [List.filter_cons, hpos]

theorem set_keybits_all (h : Headers) (s : State) :
    set_keybits h (List.range 128) s =
      .ok ⟨s.ui, s.trace ++
        ((keymap h).filter (fun k => 0 < k)).map
          (fun k => Call.ioctl s.ui (Ioctl.UI_SET_KEYBIT k))⟩ := by
  have := set_keybits_drop h (keymap h) 0 s rfl
  rw [keymap_length] at this
  rw [List.range_eq_range']
  exact this

theorem handle_event_frame (h : Headers) (ev : snd_seq_event_t) (s : State) :
    (∃ out : List Call,
      handle_event h ev s = .ok ⟨s.ui, s.trace ++ out⟩ ∧ ∀ c ∈ out, in_loop c = true) ∨
    handle_event h ev s = .error ⟨Status.out_of_bounds ev.note, s⟩ := by
  by_cases hin : ((ev.type : Int) = h.SND_SEQ_EVENT_NOTEON ∨
      (ev.type : Int) = h.SND_SEQ_EVENT_NOTEOFF) → ev.note < 128
  · left
    obtain ⟨kvs, hk, _⟩ := handle_event_transitions h ev s hin
    refine ⟨_, hk, ?_⟩
    intro c hc
    simp only [List.mem_flatten, List.mem_map] at hc
    obtain ⟨l, ⟨kv, _, rfl⟩, hmem⟩ := hc
    simp only [transition, List.mem_cons, List.mem_singleton, List.not_mem_nil,
      or_false] at hmem
    rcases hmem with rfl | rfl <;> rfl
  · right
    push_neg at hin
    exact handle_event_out_of_range h ev s hin.1 hin.2

theorem registered_keys_append (a b : List Call) :
    registered_keys (a ++ b) = registered_keys a ++ registered_keys b := by
  induction a with
  | nil => rfl
  | cons c a ih =>
    cases c with
    | ioctl fd req => cases req <;> simp [registered_keys, ih]
    | _ => simp [registered_keys, ih]

theorem registered_keys_in_loop (out : List Call) (hout : ∀ c ∈ out, in_loop c = true) :
    registered_keys out = [] := by
  induction out with
  | nil => rfl
  | cons c out ih =>
    have hc := hout c (List.mem_cons_self _ _)
    have ih' := ih (fun c' hc' => hout c' (List.mem_cons_of_mem _ hc'))
    cases c <;> simp [in_loop] at hc <;> simp [registered_keys, ih']

theorem registered_keys_map (ui : Int) (l : List Int) :
    registered_keys (l.map (fun k => Call.ioctl ui (Ioctl.UI_SET_KEYBIT k))) = l := by
  induction l with
  | nil => rfl
  | cons k l ih => simp [registered_keys, ih]

theorem drain_frame (h : Headers) (inputs : List (Int × Option snd_seq_event_t)) :
    ∀ s : State, ∃ out : List Call, (∀ c ∈ out, in_loop c = true) ∧
      (drain h inputs s = .ok ⟨s.ui, s.trace ++ out⟩ ∨
       drain h inputs s = .error ⟨Status.waiting, ⟨s.ui, s.trace ++ out⟩⟩ ∨
       ∃ i, drain h inputs s = .error ⟨Status.out_of_bounds i, ⟨s.ui, s.trace ++ out⟩⟩) := by
  induction inputs with
  | nil =>
    intro s
    refine ⟨[Call.snd_seq_event_input], ?_, Or.inr (Or.inl rfl)⟩
    intro c hc
    simp only [List.mem_singleton] at hc
    subst hc
    rfl
  | cons inp rest ih =>
    intro s
    obtain ⟨err, event⟩ := inp
    have hin1 : ∀ c ∈ [Call.snd_seq_event_input], in_loop c = true := by
      intro c hc
      simp only [List.mem_singleton] at hc
      subst hc
      rfl
    by_cases herr : err < 0
    · refine ⟨[Call.snd_seq_event_input], hin1, Or.inl ?_⟩
      simp [drain, herr, State.call]
    · have hev : (∃ out1 : List Call, (∀ c ∈ out1, in_loop c = true) ∧
          (match event with
            | some ev => handle_event h ev (s.call Call.snd_seq_event_input)
            | none => Except.ok (s.call Call.snd_seq_event_input) : Except Halt State) =
            Except.ok ⟨s.ui, s.trace ++ ([Call.snd_seq_event_input] ++ out1)⟩) ∨
          (∃ i : Nat, (match event with
            | some ev => handle_event h ev (s.call Call.snd_seq_event_input)
            | none => Except.ok (s.call Call.snd_seq_event_input) : Except Halt State) =
            Except.error
              ⟨Status.out_of_bounds i, ⟨s.ui, s.trace ++ [Call.snd_seq_event_input]⟩⟩) := by
        cases event with
        | none => exact Or.inl ⟨[], by simp, by simp [State.call]⟩
        | some ev =>
          rcases handle_event_frame h ev (s.call Call.snd_seq_event_input) with
            ⟨out1, h1, h2⟩ | h1
          · exact Or.inl ⟨out1, h2, by simpa [State.call, List.append_assoc] using h1⟩
          · exact Or.inr ⟨ev.note, by simpa [State.call] using h1⟩
      rcases hev with ⟨out1, hin2, h1⟩ | ⟨i, h1⟩
      · by_cases hpos : err > 0
        · obtain ⟨out2, hin3, h3⟩ := ih ⟨s.ui, s.trace ++ ([Call.snd_seq_event_input] ++ out1)⟩
          refine ⟨[Call.snd_seq_event_input] ++ out1 ++ out2, ?_, ?_⟩
          · intro c hc
            simp only [List.mem_append] at hc
            rcases hc with (hc | hc) | hc
            · exact hin1 c hc
            · exact hin2 c hc
            · exact hin3 c hc
          · have hd : drain h ((err, event) :: rest) s =
                drain h rest ⟨s.ui, s.trace ++ ([Call.snd_seq_event_input] ++ out1)⟩ := by
              simp only [drain]
              rw [if_neg herr, h1]
              simp only
              rw [if_pos hpos]
            rw [hd]
            simpa [List.append_assoc] using h3
        · refine ⟨[Call.snd_seq_event_input] ++ out1, ?_, Or.inl ?_⟩
          · intro c hc
            simp only [List.mem_append] at hc
            rcases hc with hc | hc
            · exact hin1 c hc
            · exact hin2 c hc
          · simp only [drain]
            rw [if_neg herr, h1]
            simp only
            rw [if_neg hpos]
      · refine ⟨[Call.snd_seq_event_input], hin1, Or.inr (Or.inr ⟨i, ?_⟩)⟩
        simp only [drain]
        rw [if_neg herr, h1]

theorem dispatch_loop_frame (h : Headers) (wakeups : List Wakeup) :
    ∀ s : State, ∃ out : List Call, (∀ c ∈ out, in_loop c = true) ∧
      (dispatch_loop h wakeups s = .ok ⟨s.ui, s.trace ++ out⟩ ∨
       dispatch_loop h wakeups s = .error ⟨Status.waiting, ⟨s.ui, s.trace ++ out⟩⟩ ∨
       ∃ i, dispatch_loop h wakeups s =
        .error ⟨Status.out_of_bounds i, ⟨s.ui, s.trace ++ out⟩⟩) := by
  have hin1 : ∀ c ∈ [Call.snd_seq_poll_descriptors, Call.poll], in_loop c = true := by
    intro c hc
    simp only [List.mem_cons, List.mem_singleton, List.not_mem_nil, or_false] at hc
    rcases hc with rfl | rfl <;> rfl
  induction wakeups with
  | nil =>
    intro s
    refine ⟨[Call.snd_seq_poll_descriptors, Call.poll], hin1, Or.inr (Or.inl ?_)⟩
    simp [dispatch_loop, State.call]
  | cons wk rest ih =>
    intro s
    by_cases hret : wk.poll_ret < 0
    · refine ⟨[Call.snd_seq_poll_descriptors, Call.poll], hin1, Or.inl ?_⟩
      simp [dispatch_loop, hret, State.call]
    · obtain ⟨out1, hin2, h1⟩ :=
        drain_frame h wk.inputs ⟨s.ui, s.trace ++ [Call.snd_seq_poll_descriptors, Call.poll]⟩
      have hs : (s.call Call.snd_seq_poll_descriptors).call Call.poll =
          ⟨s.ui, s.trace ++ [Call.snd_seq_poll_descriptors, Call.poll]⟩ := by
        simp [State.call]
      have hmem : ∀ c ∈ [Call.snd_seq_poll_descriptors, Call.poll] ++ out1,
          in_loop c = true := by
        intro c hc
        simp only [List.mem_append] at hc
        rcases hc with hc | hc
        · exact hin1 c hc
        · exact hin2 c hc
      rcases h1 with h1 | h1 | ⟨i, h1⟩
      · obtain ⟨out2, hin3, h3⟩ :=
          ih ⟨s.ui, s.trace ++ [Call.snd_seq_poll_descriptors, Call.poll] ++ out1⟩
        refine ⟨[Call.snd_seq_poll_descriptors, Call.poll] ++ out1 ++ out2, ?_, ?_⟩
        · intro c hc
          rw [List.mem_append] at hc
          rcases hc with hc | hc
          · exact hmem c hc
          · exact hin3 c hc
        · have hd : dispatch_loop h (wk :: rest) s = dispatch_loop h rest
              ⟨s.ui, s.trace ++ [Call.snd_seq_poll_descriptors, Call.poll] ++ out1⟩ := by
            simp only [dispatch_loop]
            rw [if_neg hret, hs, h1]
          rw [hd]
          simpa [List.append_assoc] using h3
      · refine ⟨[Call.snd_seq_poll_descriptors, Call.poll] ++ out1, hmem, Or.inr (Or.inl ?_)⟩
        simp only [dispatch_loop]
        rw [if_neg hret, hs, h1]
        simp [List.append_assoc]
      · refine ⟨[Call.snd_seq_poll_descriptors, Call.poll] ++ out1, hmem,
          Or.inr (Or.inr ⟨i, ?_⟩)⟩
        simp only [dispatch_loop]
        rw [if_neg hret, hs, h1]
        simp [List.append_assoc]

theorem main_uinput_setup_eq (h : Headers) (env : Env) :
    main_uinput_setup h env = .ok ⟨env.open_ret, setup_calls h env.open_ret⟩ := by
  unfold main_uinput_setup
  rw [set_keybits_all]
  simp [State.call, setup_calls]

theorem main_connect_cases (env : Env) (s : State) :
    (connect_fails env ∧ ∃ (calls : List Call) (step : String) (err : Int),
      main_connect env s = .error ⟨Status.exited 1,
        ⟨s.ui, s.trace ++ Call.snd_seq_open :: (calls ++ [Call.fprintf_error step err])⟩⟩ ∧
      registered_keys calls = [] ∧
      (∀ fd req, Call.ioctl fd req ∉ calls) ∧ (∀ fd, Call.close fd ∉ calls)) ∨
    (¬ connect_fails env ∧ ∃ calls : List Call,
      main_connect env s = .ok ⟨s.ui, s.trace ++ Call.snd_seq_open :: calls⟩ ∧
      registered_keys calls = []) := by
  unfold main_connect connect_fails
  by_cases h1 : env.snd_seq_open_ret < 0
  · exact Or.inl ⟨Or.inl h1, [], "snd_seq_open", env.snd_seq_open_ret,
      by simp [h1, State.call], by simp [registered_keys], by simp, by simp⟩
  by_cases h2 : env.snd_seq_set_client_name_ret < 0
  · exact Or.inl ⟨Or.inr (Or.inl h2), [Call.snd_seq_set_client_name "midiokbd"],
      "snd_seq_set_client_name", env.snd_seq_set_client_name_ret,
      by simp [h1, h2, State.call], by simp [registered_keys], by simp, by simp⟩
  by_cases h3 : env.snd_seq_parse_address_ret < 0
  · exact Or.inl ⟨Or.inr (Or.inr (Or.inl h3)),
      [Call.snd_seq_set_client_name "midiokbd", Call.snd_seq_parse_address env.argv[1]?],
      "snd_seq_parse_address", env.snd_seq_parse_address_ret,
      by simp [h1, h2, h3, State.call], by simp [registered_keys], by simp, by simp⟩
  by_cases h4 : env.snd_seq_create_simple_port_ret < 0
  · exact Or.inl ⟨Or.inr (Or.inr (Or.inr (Or.inl h4))),
      [Call.snd_seq_set_client_name "midiokbd", Call.snd_seq_parse_address env.argv[1]?,
        Call.snd_seq_create_simple_port "midiokbd"],
      "snd_seq_create_simple_port", env.snd_seq_create_simple_port_ret,
      by simp [h1, h2, h3, h4, State.call], by simp [registered_keys], by simp, by simp⟩
  by_cases h5 : env.snd_seq_connect_from_ret < 0
  · exact Or.inl ⟨Or.inr (Or.inr (Or.inr (Or.inr h5))),
      [Call.snd_seq_set_client_name "midiokbd", Call.snd_seq_parse_address env.argv[1]?,
        Call.snd_seq_create_simple_port "midiokbd",
        Call.snd_seq_connect_from env.seq_addr_client env.seq_addr_port],
      "snd_seq_connect_from", env.snd_seq_connect_from_ret,
      by simp [h1, h2, h3, h4, h5, State.call], by simp [registered_keys], by simp, by simp⟩
  · refine Or.inr ⟨?_,
      [Call.snd_seq_set_client_name "midiokbd", Call.snd_seq_parse_address env.argv[1]?,
        Call.snd_seq_create_simple_port "midiokbd",
        Call.snd_seq_connect_from env.seq_addr_client env.seq_addr_port],
      by simp [h1, h2, h3, h4, h5, State.call], by simp [registered_keys]⟩
    rintro (h | h | h | h | h) <;> contradiction

theorem main_shape (h : Headers) (env : Env) (hargs : env.argv.length = 2) :
    ∃ tail : List Call,
      (main h env).state =
        ⟨env.open_ret, setup_calls h env.open_ret ++ Call.snd_seq_open :: tail⟩ ∧
      registered_keys tail = [] ∧
      ((connect_fails env ∧ (main h env).status = Status.exited 1 ∧
          (∃ (calls : List Call) (step : String) (err : Int),
            tail = calls ++ [Call.fprintf_error step err] ∧
            (∀ fd req, Call.ioctl fd req ∉ calls) ∧ (∀ fd, Call.close fd ∉ calls))) ∨
       (¬ connect_fails env ∧
          ((main h env).status = Status.exited 0 ∨ (main h env).status = Status.waiting ∨
            ∃ i, (main h env).status = Status.out_of_bounds i))) := by
  generalize hpre : setup_calls h env.open_ret = pre
  have hsetup : main_uinput_setup h env = .ok ⟨env.open_ret, pre⟩ := by
    rw [main_uinput_setup_eq, hpre]
  unfold main
  rw [if_neg (not_not.mpr hargs), hsetup]
  simp only
  rcases main_connect_cases env ⟨env.open_ret, pre⟩ with
    ⟨hf, calls, step, err, hconn, hreg, hio, hcl⟩ | ⟨hf, calls, hconn, hreg⟩
  · rw [hconn]
    refine ⟨calls ++ [Call.fprintf_error step err], rfl, ?_,
      Or.inl ⟨hf, rfl, calls, step, err, rfl, hio, hcl⟩⟩
    rw [registered_keys_append, hreg]
    rfl
  · rw [hconn]
    simp only
    obtain ⟨out, hout, hloop⟩ := dispatch_loop_frame h env.wakeups
      (State.call ⟨env.open_ret, pre ++ Call.snd_seq_open :: calls⟩
        Call.snd_seq_poll_descriptors_count)
    have hrk : registered_keys
        (calls ++ [Call.snd_seq_poll_descriptors_count] ++ out) = [] := by
      rw [registered_keys_append, registered_keys_append, hreg,
        registered_keys_in_loop out hout]
      rfl
    rcases hloop with hloop | hloop | ⟨i, hloop⟩
    · rw [hloop]
      refine ⟨calls ++ [Call.snd_seq_poll_descriptors_count] ++ out ++
          [Call.ioctl env.open_ret Ioctl.UI_DEV_DESTROY, Call.close env.open_ret],
        by simp [State.call], ?_, Or.inr ⟨hf, Or.inl rfl⟩⟩
      rw [registered_keys_append, hrk]
      rfl
    · rw [hloop]
      exact ⟨calls ++ [Call.snd_seq_poll_descriptors_count] ++ out,
        by simp [State.call], hrk, Or.inr ⟨hf, Or.inr (Or.inl rfl)⟩⟩
    · rw [hloop]
      exact ⟨calls ++ [Call.snd_seq_poll_descriptors_count] ++ out,
        by simp [State.call], hrk, Or.inr ⟨hf, Or.inr (Or.inr ⟨i, rfl⟩)⟩⟩

theorem keymap_filter_pos (h : Headers) (hpos : ∀ k ∈ letter_keys h, 0 < k) :
    (keymap h).filter (fun k => 0 < k) = letter_keys h := by
  have hz : ∀ n : Nat, (List.replicate n (0 : Int)).filter (fun k => 0 < k) = [] := by
    intro n
    rw [List.filter_eq_nil_iff]
    intro a ha
    rw [List.eq_of_mem_replicate ha]
    decide
  have hl : (letter_keys h).filter (fun k => 0 < k) = letter_keys h :=
    List.filter_eq_self.mpr (fun k hk => decide_eq_true (hpos k hk))
  rw [keymap_eq, List.filter_append, List.filter_append, hz, hz, hl]
  simp

theorem registered_keys_setup_calls (h : Headers) (ui : Int) :
    registered_keys (setup_calls h ui) = (keymap h).filter (fun k => 0 < k) := by
  unfold setup_calls
  rw [registered_keys_append, registered_keys_append, registered_keys_map]
  simp [registered_keys]

theorem mem_keymap_iff (h : Headers) (k : Int) :
    k ∈ keymap h ↔ k = 0 ∨ k ∈ letter_keys h := by
  rw [keymap_eq]
  simp only [List.mem_append, List.mem_replicate]
  constructor
  · rintro ((⟨_, h0⟩ | hk) | ⟨_, h0⟩)
    · exact Or.inl h0
    · exact Or.inr hk
    · exact Or.inl h0
  · rintro (h0 | hk)
    · exact Or.inl (Or.inl ⟨by decide, h0⟩)
    · exact Or.inl (Or.inr hk)

/-! ## Device capability registration (C7) -/

/-- C7. When the 26 letter key codes are positive, in every run of `main`
with one port argument the key codes declared with `UI_SET_KEYBIT` are
exactly the 26 letter keys A..Z, each once; these are exactly the non-zero
values of `keymap`; and every key transition `handle_event` writes is for
one of them. -/
theorem registered_keys_are_the_mapped_keys (h : Headers)
    (hpos : ∀ k ∈ letter_keys h, 0 < k) (env : Env) (hargs : env.argv.length = 2) :
    registered_keys (main h env).state.trace = letter_keys h ∧
    (letter_keys h).length = 26 ∧
    (∀ k : Int, k ∈ letter_keys h ↔
      (k ≠ 0 ∧ ∃ n : Nat, n < 128 ∧ (keymap h)[n]? = some k)) ∧
    (∀ (ev : snd_seq_event_t) (s s' : State), handle_event h ev s = .ok s' →
      ∃ kvs : List (Int × Int),
        s' = ⟨s.ui, s.trace ++ (kvs.map (transition h s.ui)).flatten⟩ ∧
        ∀ kv ∈ kvs, kv.1 ∈ letter_keys h) := by
  have hmapped : ∀ k : Int, (k ≠ 0 ∧ ∃ n : Nat, n < 128 ∧ (keymap h)[n]? = some k) →
      k ∈ letter_keys h := by
    rintro k ⟨hk0, n, _, hn⟩
    have hmem : k ∈ keymap h := List.mem_iff_getElem?.mpr ⟨n, hn⟩
    exact ((mem_keymap_iff h k).mp hmem).resolve_left hk0
  refine ⟨?_, rfl, ?_, ?_⟩
  · obtain ⟨tail, hstate, hreg, _⟩ := main_shape h env hargs
    rw [hstate]
    simp only
    rw [registered_keys_append, registered_keys_setup_calls, keymap_filter_pos h hpos]
    have : registered_keys (Call.snd_seq_open :: tail) = registered_keys tail := rfl
    rw [this, hreg, List.append_nil]
  · intro k
    constructor
    · intro hk
      refine ⟨ne_of_gt (hpos k hk), ?_⟩
      have hmem : k ∈ keymap h := (mem_keymap_iff h k).mpr (Or.inr hk)
      obtain ⟨n, hn⟩ := List.mem_iff_getElem?.mp hmem
      refine ⟨n, ?_, hn⟩
      by_contra hge
      rw [keymap_out_of_range h n (Nat.le_of_not_lt hge)] at hn
      exact Option.noConfusion hn
    · exact hmapped k
  · intro ev s s' hok
    by_cases hin : ((ev.type : Int) = h.SND_SEQ_EVENT_NOTEON ∨
        (ev.type : Int) = h.SND_SEQ_EVENT_NOTEOFF) → ev.note < 128
    · obtain ⟨kvs, hk, hkeys⟩ := handle_event_transitions h ev s hin
      rw [hk] at hok
      refine ⟨kvs, (Except.ok.inj hok).symm, ?_⟩
      intro kv hkv
      obtain ⟨hkv0, hkvn⟩ := hkeys kv hkv
      refine hmapped kv.1 ⟨hkv0, ev.note, ?_, hkvn⟩
      by_contra hge
      rw [keymap_out_of_range h ev.note (Nat.le_of_not_lt hge)] at hkvn
      exact Option.noConfusion hkvn
    · push_neg at hin
      rw [handle_event_out_of_range h ev s hin.1 hin.2] at hok
      exact Except.noConfusion hok

/-- Instance of C7 with the Linux key codes on a run in which every call
succeeds. -/
theorem registered_keys_are_the_mapped_keys_witness :
    registered_keys (main linux_headers env_all_ok).state.trace = letter_keys linux_headers ∧
    (letter_keys linux_headers).length = 26 ∧
    (∀ k : Int, k ∈ letter_keys linux_headers ↔
      (k ≠ 0 ∧ ∃ n : Nat, n < 128 ∧ (keymap linux_headers)[n]? = some k)) ∧
    (∀ (ev : snd_seq_event_t) (s s' : State), handle_event linux_headers ev s = .ok s' →
      ∃ kvs : List (Int × Int),
        s' = ⟨s.ui, s.trace ++ (kvs.map (transition linux_headers s.ui)).flatten⟩ ∧
        ∀ kv ∈ kvs, kv.1 ∈ letter_keys linux_headers) :=
  registered_keys_are_the_mapped_keys linux_headers (by decide) env_all_ok (by decide)

/-! ## Failures during setup (C8) -/

/-- C8, evaluated on the run in which `open` and every `ioctl` return -1:
the claim asks for an abort with a non-zero status before the MIDI
connection, as the steps of the MIDI connection do on failure; `main`
instead goes on to the MIDI connection and to the dispatch loop, makes no
diagnostic call, and ends with status 0. -/
theorem uinput_failure_is_not_fatal :
    env_uinput_fails.open_ret < 0 ∧
    (∀ req, env_uinput_fails.ioctl_ret req < 0) ∧
    (main linux_headers env_uinput_fails).status = Status.exited 0 ∧
    Call.snd_seq_open ∈ (main linux_headers env_uinput_fails).state.trace ∧
    Call.poll ∈ (main linux_headers env_uinput_fails).state.trace ∧
    (∀ step err,
      Call.fprintf_error step err ∉ (main linux_headers env_uinput_fails).state.trace) ∧
    (∀ argv0, Call.fprintf_usage argv0 ∉ (main linux_headers env_uinput_fails).state.trace) := by
  have htrace : (main linux_headers env_uinput_fails).state.trace =
      setup_calls linux_headers (-1) ++
        [ Call.snd_seq_open, Call.snd_seq_set_client_name "midiokbd",
          Call.snd_seq_parse_address (some "20:0"),
          Call.snd_seq_create_simple_port "midiokbd",
          Call.snd_seq_connect_from 20 0,
          Call.snd_seq_poll_descriptors_count,
          Call.snd_seq_poll_descriptors, Call.poll,
          Call.ioctl (-1) Ioctl.UI_DEV_DESTROY, Call.close (-1) ] := by
    decide
  refine ⟨by decide, fun _ => ?_, by decide, by decide, by decide, ?_, ?_⟩
  · show (-1 : Int) < 0
    decide
  · intro step err hmem
    rw [htrace] at hmem
    simp only [setup_calls, List.mem_append, List.mem_cons, List.mem_singleton, List.mem_map,
      List.not_mem_nil, or_false] at hmem
    rcases hmem with (((h | h) | ⟨k, _, h⟩) | (h | h)) |
      (h | h | h | h | h | h | h | h | h | h) <;> simp at h
  · intro argv0 hmem
    rw [htrace] at hmem
    simp only [setup_calls, List.mem_append, List.mem_cons, List.mem_singleton, List.mem_map,
      List.not_mem_nil, or_false] at hmem
    rcases hmem with (((h | h) | ⟨k, _, h⟩) | (h | h)) |
      (h | h | h | h | h | h | h | h | h | h) <;> simp at h

/-- The exits of `main` with status 1.  In every run with one port
argument `main` makes all the calls of the device setup, whatever `open`
and the `ioctl` steps return, and then starts the MIDI connection.  It
ends with exit status 1 exactly when the argument count is wrong or a step
of the MIDI connection fails, and then its last call is the diagnostic
written to standard error. -/
theorem exit_one_iff_usage_or_connect_failure (h : Headers) (env : Env) :
    (env.argv.length = 2 →
      ∃ tail : List Call, (main h env).state.trace =
        setup_calls h env.open_ret ++ Call.snd_seq_open :: tail) ∧
    ((main h env).status = Status.exited 1 ↔
      (env.argv.length ≠ 2 ∨ connect_fails env)) ∧
    ((main h env).status = Status.exited 1 →
      (∃ argv0, (main h env).state.trace.getLast? = some (Call.fprintf_usage argv0)) ∨
      (∃ step err, (main h env).state.trace.getLast? = some (Call.fprintf_error step err))) := by
  by_cases hargs : env.argv.length = 2
  · obtain ⟨tail, hstate, _, hcases⟩ := main_shape h env hargs
    refine ⟨fun _ => ⟨tail, by rw [hstate]⟩, ?_, ?_⟩
    · constructor
      · intro hst
        rcases hcases with ⟨hf, _⟩ | ⟨_, h0 | hw | ⟨i, hi⟩⟩
        · exact Or.inr hf
        · rw [h0] at hst; exact absurd hst (by decide)
        · rw [hw] at hst; exact Status.noConfusion hst
        · rw [hi] at hst; exact Status.noConfusion hst
      · rintro (hne | hf)
        · exact absurd hargs hne
        · rcases hcases with ⟨_, hst, _⟩ | ⟨hnf, _⟩
          · exact hst
          · exact absurd hf hnf
    · intro hst
      rcases hcases with ⟨_, _, calls, step, err, htail, _⟩ | ⟨_, h0 | hw | ⟨i, hi⟩⟩
      · right
        refine ⟨step, err, ?_⟩
        rw [hstate, htail]
        simp only
        have : setup_calls h env.open_ret ++
            Call.snd_seq_open :: (calls ++ [Call.fprintf_error step err]) =
            (setup_calls h env.open_ret ++ Call.snd_seq_open :: calls) ++
              [Call.fprintf_error step err] := by
          simp
        rw [this, List.getLast?_append]
        rfl
      · rw [h0] at hst; exact absurd hst (by decide)
      · rw [hw] at hst; exact Status.noConfusion hst
      · rw [hi] at hst; exact Status.noConfusion hst
  · have hmain : main h env =
        ⟨Status.exited 1, (State.mk 0 []).call (Call.fprintf_usage env.argv[0]?)⟩ := by
      unfold main
      rw [if_pos hargs]
    refine ⟨fun h2 => absurd h2 hargs, ?_, ?_⟩
    · rw [hmain]
      exact ⟨fun _ => Or.inl hargs, fun _ => rfl⟩
    · intro _
      left
      rw [hmain]
      exact ⟨env.argv[0]?, rfl⟩

/-! ## Teardown (C9) -/

/-- C9 fails on a run with a port address that `snd_seq_parse_address`
rejects: the device has been created, `main` exits with status 1, and
neither `UI_DEV_DESTROY` nor `close` is called.  On the run that ends
because `poll` fails, `main` does destroy the device and close the
descriptor, once each, as its last two calls. -/
theorem no_teardown_on_connect_failure :
    (main linux_headers env_bad_port).status = Status.exited 1 ∧
    Call.ioctl 3 Ioctl.UI_DEV_CREATE ∈ (main linux_headers env_bad_port).state.trace ∧
    (∀ fd, Call.ioctl fd Ioctl.UI_DEV_DESTROY ∉ (main linux_headers env_bad_port).state.trace) ∧
    (∀ fd, Call.close fd ∉ (main linux_headers env_bad_port).state.trace) ∧
    (main linux_headers env_bad_port).state.trace.getLast? =
      some (Call.fprintf_error "snd_seq_parse_address" (-2)) ∧
    (main linux_headers env_all_ok).status = Status.exited 0 ∧
    (main linux_headers env_all_ok).state.trace.count (Call.ioctl 3 Ioctl.UI_DEV_DESTROY) = 1 ∧
    (main linux_headers env_all_ok).state.trace.count (Call.close 3) = 1 ∧
    (main linux_headers env_all_ok).state.trace.drop
        ((main linux_headers env_all_ok).state.trace.length - 2) =
      [Call.ioctl 3 Ioctl.UI_DEV_DESTROY, Call.close 3] := by
  have htrace : (main linux_headers env_bad_port).state.trace =
      setup_calls linux_headers 3 ++
        [ Call.snd_seq_open, Call.snd_seq_set_client_name "midiokbd",
          Call.snd_seq_parse_address (some "nosuchport"),
          Call.fprintf_error "snd_seq_parse_address" (-2) ] := by
    decide
  refine ⟨by decide, by decide, ?_, ?_, by decide, by decide, by decide, by decide,
    by decide⟩
  · intro fd hmem
    rw [htrace] at hmem
    simp only [setup_calls, List.mem_append, List.mem_cons, List.mem_singleton, List.mem_map,
      List.not_mem_nil, or_false] at hmem
    rcases hmem with (((h | h) | ⟨k, _, h⟩) | (h | h)) | (h | h | h | h) <;> simp at h
  · intro fd hmem
    rw [htrace] at hmem
    simp only [setup_calls, List.mem_append, List.mem_cons, List.mem_singleton, List.mem_map,
      List.not_mem_nil, or_false] at hmem
    rcases hmem with (((h | h) | ⟨k, _, h⟩) | (h | h)) | (h | h | h | h) <;> simp at h

/-! ## The output stream of `main`

The dispatch loop of `main` hands the delivered events to `handle_event`
one by one, so the statements about `handle_events` describe the records
that a run of `main` writes. -/

theorem writes_append (a b : List Call) : writes (a ++ b) = writes a ++ writes b := by
  simp [writes, List.filter_append]

theorem writes_translation (h : Headers) (ui : Int) (ev : snd_seq_event_t) :
    writes (translation h ui ev) = translation h ui ev := by
  unfold translation
  cases (keymap h)[ev.note]? with
  | none => rfl
  | some k =>
    simp only
    split_ifs <;> simp [writes]

theorem writes_translations (h : Headers) (ui : Int) (evs : List snd_seq_event_t) :
    writes ((evs.map (translation h ui)).flatten) = (evs.map (translation h ui)).flatten := by
  induction evs with
  | nil => rfl
  | cons ev evs ih =>
    simp only [List.map_cons, List.flatten_cons]
    rw [writes_append, writes_translation, ih]

theorem handle_optional_event (h : Headers)
    (hne : h.SND_SEQ_EVENT_NOTEON ≠ h.SND_SEQ_EVENT_NOTEOFF)
    (s : State) (event : Option snd_seq_event_t) :
    (∀ ev ∈ event.toList, ((ev.type : Int) = h.SND_SEQ_EVENT_NOTEON ∨
        (ev.type : Int) = h.SND_SEQ_EVENT_NOTEOFF) → ev.note < 128) →
    (match event with
      | some ev => handle_event h ev s
      | none => Except.ok s : Except Halt State) =
    Except.ok ⟨s.ui, s.trace ++ (event.toList.map (translation h s.ui)).flatten⟩ := by
  intro hin
  cases event with
  | none => simp
  | some ev =>
    have := handle_event_translation h hne ev s (hin ev (by simp))
    simpa using this

theorem drain_output (h : Headers)
    (hne : h.SND_SEQ_EVENT_NOTEON ≠ h.SND_SEQ_EVENT_NOTEOFF)
    (inputs : List (Int × Option snd_seq_event_t)) :
    ∀ s : State,
      (∀ ev ∈ (drain_events inputs).1, ((ev.type : Int) = h.SND_SEQ_EVENT_NOTEON ∨
          (ev.type : Int) = h.SND_SEQ_EVENT_NOTEOFF) → ev.note < 128) →
      ∃ out : List Call,
        writes out = (((drain_events inputs).1).map (translation h s.ui)).flatten ∧
        (((drain_events inputs).2 = true ∧ drain h inputs s = .ok ⟨s.ui, s.trace ++ out⟩) ∨
         ((drain_events inputs).2 = false ∧
            drain h inputs s = .error ⟨Status.waiting, ⟨s.ui, s.trace ++ out⟩⟩)) := by
  induction inputs with
  | nil =>
    intro s _
    exact ⟨[Call.snd_seq_event_input], rfl, Or.inr ⟨rfl, rfl⟩⟩
  | cons inp rest ih =>
    intro s hin
    obtain ⟨err, event⟩ := inp
    by_cases herr : err < 0
    · refine ⟨[Call.snd_seq_event_input], by simp [drain_events, herr, writes],
        Or.inl ⟨by simp [drain_events, herr], by simp [drain, herr, State.call]⟩⟩
    · have hmem : ∀ ev ∈ event.toList, ev ∈ (drain_events ((err, event) :: rest)).1 := by
        intro ev hev
        by_cases hpos : err > 0
        · simp only [drain_events, if_neg herr, if_pos hpos, List.mem_append]
          exact Or.inl hev
        · simp only [drain_events, if_neg herr, if_neg hpos]
          exact hev
      have hev := handle_optional_event h hne (s.call Call.snd_seq_event_input) event
        (fun ev hev => hin ev (hmem ev hev))
      have hs1 : (⟨(s.call Call.snd_seq_event_input).ui,
          (s.call Call.snd_seq_event_input).trace ++
            (event.toList.map
              (translation h (s.call Call.snd_seq_event_input).ui)).flatten⟩ : State) =
          ⟨s.ui, s.trace ++ ([Call.snd_seq_event_input] ++
            (event.toList.map (translation h s.ui)).flatten)⟩ := by
        simp [State.call, List.append_assoc]
      rw [hs1] at hev
      by_cases hpos : err > 0
      · have hrest : ∀ ev ∈ (drain_events rest).1,
            ((ev.type : Int) = h.SND_SEQ_EVENT_NOTEON ∨
              (ev.type : Int) = h.SND_SEQ_EVENT_NOTEOFF) → ev.note < 128 := by
          intro ev hmr
          apply hin ev
          simp only [drain_events, if_neg herr, if_pos hpos, List.mem_append]
          exact Or.inr hmr
        obtain ⟨out2, hw2, h2⟩ := ih ⟨s.ui, s.trace ++ ([Call.snd_seq_event_input] ++
          (event.toList.map (translation h s.ui)).flatten)⟩ hrest
        have hd : drain h ((err, event) :: rest) s =
            drain h rest ⟨s.ui, s.trace ++ ([Call.snd_seq_event_input] ++
              (event.toList.map (translation h s.ui)).flatten)⟩ := by
          simp only [drain]
          rw [if_neg herr, hev]
          simp only
          rw [if_pos hpos]
        refine ⟨[Call.snd_seq_event_input] ++
          (event.toList.map (translation h s.ui)).flatten ++ out2, ?_, ?_⟩
        · rw [writes_append, writes_append, writes_translations, hw2]
          simp [drain_events, herr, hpos, writes]
        · rw [hd]
          simp only [drain_events, if_neg herr, if_pos hpos]
          simpa [List.append_assoc] using h2
      · refine ⟨[Call.snd_seq_event_input] ++
          (event.toList.map (translation h s.ui)).flatten, ?_, Or.inl ⟨?_, ?_⟩⟩
        · rw [writes_append, writes_translations]
          simp [drain_events, herr, hpos, writes]
        · simp [drain_events, herr, hpos]
        · simp only [drain]
          rw [if_neg herr, hev]
          simp only
          rw [if_neg hpos]

theorem dispatch_loop_output (h : Headers)
    (hne : h.SND_SEQ_EVENT_NOTEON ≠ h.SND_SEQ_EVENT_NOTEOFF)
    (wakeups : List Wakeup) :
    ∀ s : State,
      (∀ ev ∈ loop_events wakeups, ((ev.type : Int) = h.SND_SEQ_EVENT_NOTEON ∨
          (ev.type : Int) = h.SND_SEQ_EVENT_NOTEOFF) → ev.note < 128) →
      ∃ out : List Call,
        writes out = ((loop_events wakeups).map (translation h s.ui)).flatten ∧
        (dispatch_loop h wakeups s = .ok ⟨s.ui, s.trace ++ out⟩ ∨
         dispatch_loop h wakeups s = .error ⟨Status.waiting, ⟨s.ui, s.trace ++ out⟩⟩) := by
  induction wakeups with
  | nil =>
    intro s _
    exact ⟨[Call.snd_seq_poll_descriptors, Call.poll], rfl,
      Or.inr (by simp [dispatch_loop, State.call])⟩
  | cons wk rest ih =>
    intro s hin
    by_cases hret : wk.poll_ret < 0
    · exact ⟨[Call.snd_seq_poll_descriptors, Call.poll],
        by simp [loop_events, hret, writes],
        Or.inl (by simp [dispatch_loop, hret, State.call])⟩
    · have hs : (s.call Call.snd_seq_poll_descriptors).call Call.poll =
          ⟨s.ui, s.trace ++ [Call.snd_seq_poll_descriptors, Call.poll]⟩ := by
        simp [State.call]
      have hsub : ∀ ev ∈ (drain_events wk.inputs).1,
          ev ∈ loop_events (wk :: rest) := by
        intro ev hev
        by_cases hdone : (drain_events wk.inputs).2 = true
        · simp only [loop_events, if_neg hret, hdone, if_true, List.mem_append]
          exact Or.inl hev
        · simp only [loop_events, if_neg hret, hdone]
          exact hev
      obtain ⟨out1, hw1, h1⟩ := drain_output h hne wk.inputs
        ⟨s.ui, s.trace ++ [Call.snd_seq_poll_descriptors, Call.poll]⟩
        (fun ev hev => hin ev (hsub ev hev))
      rcases h1 with ⟨hdone, h1⟩ | ⟨hdone, h1⟩
      · have hrest : ∀ ev ∈ loop_events rest,
            ((ev.type : Int) = h.SND_SEQ_EVENT_NOTEON ∨
              (ev.type : Int) = h.SND_SEQ_EVENT_NOTEOFF) → ev.note < 128 := by
          intro ev hmr
          apply hin ev
          simp only [loop_events, if_neg hret, hdone, if_true, List.mem_append]
          exact Or.inr hmr
        obtain ⟨out2, hw2, h2⟩ :=
          ih ⟨s.ui, s.trace ++ [Call.snd_seq_poll_descriptors, Call.poll] ++ out1⟩ hrest
        have hd : dispatch_loop h (wk :: rest) s = dispatch_loop h rest
            ⟨s.ui, s.trace ++ [Call.snd_seq_poll_descriptors, Call.poll] ++ out1⟩ := by
          simp only [dispatch_loop]
          rw [if_neg hret, hs, h1]
        refine ⟨[Call.snd_seq_poll_descriptors, Call.poll] ++ out1 ++ out2, ?_, ?_⟩
        · rw [writes_append, writes_append, hw1, hw2]
          simp [loop_events, hret, hdone, writes]
        · rw [hd]
          simpa [List.append_assoc] using h2
      · refine ⟨[Call.snd_seq_poll_descriptors, Call.poll] ++ out1, ?_, Or.inr ?_⟩
        · rw [writes_append, hw1]
          simp [loop_events, hret, hdone, writes]
        · simp only [dispatch_loop]
          rw [if_neg hret, hs, h1]
          simp [List.append_assoc]

theorem writes_setup_calls (h : Headers) (ui : Int) : writes (setup_calls h ui) = [] := by
  unfold writes
  rw [List.filter_eq_nil_iff]
  intro c hc
  simp only [setup_calls, List.mem_append, List.mem_cons, List.mem_singleton, List.mem_map,
    List.not_mem_nil, or_false] at hc
  rcases hc with ((rfl | rfl) | ⟨k, _, rfl⟩) | (rfl | rfl) <;> simp

theorem main_connect_ok (env : Env) (s : State) (hconn : ¬ connect_fails env) :
    main_connect env s = .ok ⟨s.ui, s.trace ++
      [ Call.snd_seq_open, Call.snd_seq_set_client_name "midiokbd",
        Call.snd_seq_parse_address env.argv[1]?,
        Call.snd_seq_create_simple_port "midiokbd",
        Call.snd_seq_connect_from env.seq_addr_client env.seq_addr_port ]⟩ := by
  unfold connect_fails at hconn
  push_neg at hconn
  obtain ⟨h1, h2, h3, h4, h5⟩ := hconn
  unfold main_connect
  simp [not_lt.mpr h1, not_lt.mpr h2, not_lt.mpr h3, not_lt.mpr h4, not_lt.mpr h5, State.call]

/-- The records written by a run of `main` with one port argument and a
successful MIDI connection are the translations, in order, of the events
the dispatch loop receives (events of note type carrying a note in
0..127); the run ends with status 0 or is still waiting for input. -/
theorem main_output (h : Headers)
    (hne : h.SND_SEQ_EVENT_NOTEON ≠ h.SND_SEQ_EVENT_NOTEOFF)
    (env : Env) (hargs : env.argv.length = 2) (hconn : ¬ connect_fails env)
    (hin : ∀ ev ∈ loop_events env.wakeups, ((ev.type : Int) = h.SND_SEQ_EVENT_NOTEON ∨
        (ev.type : Int) = h.SND_SEQ_EVENT_NOTEOFF) → ev.note < 128) :
    writes (main h env).state.trace =
      ((loop_events env.wakeups).map (translation h env.open_ret)).flatten ∧
    ((main h env).status = Status.exited 0 ∨ (main h env).status = Status.waiting) := by
  generalize hpre : setup_calls h env.open_ret = pre
  have hwpre : writes pre = [] := by rw [← hpre]; exact writes_setup_calls h env.open_ret
  have hsetup : main_uinput_setup h env = .ok ⟨env.open_ret, pre⟩ := by
    rw [main_uinput_setup_eq, hpre]
  obtain ⟨out, hw, hloop⟩ := dispatch_loop_output h hne env.wakeups
    (State.call ⟨env.open_ret, pre ++
      [ Call.snd_seq_open, Call.snd_seq_set_client_name "midiokbd",
        Call.snd_seq_parse_address env.argv[1]?,
        Call.snd_seq_create_simple_port "midiokbd",
        Call.snd_seq_connect_from env.seq_addr_client env.seq_addr_port ]⟩
      Call.snd_seq_poll_descriptors_count) hin
  unfold main
  rw [if_neg (not_not.mpr hargs), hsetup]
  simp only
  rw [main_connect_ok env _ hconn]
  simp only
  rcases hloop with hloop | hloop
  · rw [hloop]
    refine ⟨?_, Or.inl rfl⟩
    simp only [State.call] at hw
    simp only [State.call, writes_append, hwpre, hw]
    simp [writes]
  · rw [hloop]
    refine ⟨?_, Or.inr rfl⟩
    simp only [State.call] at hw
    simp only [State.call, writes_append, hwpre, hw]
    simp [writes]

end Midiokbd
